import Mathlib

/-!
Verification of the KLog read interface (read_interface.c).

This file gives a shallow embedding of the per-reader streaming engine of the
KLog driver: the IOCTL dispatcher (DispatchDeviceControl), the filter-array
replacement routine (SetIdList) and the stream emitter (DispatchRead), all
translated from read_interface.c.  Memory buffers are modelled as lists of
byte values, machine integers as Nat with explicit reduction modulo 2^32 at
the points where the C code performs 32-bit arithmetic, and external
queue-manager calls as an explicit event list.  Out-of-bounds accesses and
null-pointer writes of the C code are modelled by returning none.
-/

set_option maxRecDepth 8000

/-! ### Byte-level helpers -/

/-- The little-endian byte serialisation of a 32-bit value. -/
def u32le (v : Nat) : List Nat :=
  [v % 256, v / 256 % 256, v / 65536 % 256, v / 16777216 % 256]

/-- Read a 32-bit little-endian value from a byte list at offset i,
mirroring a UINT32 load from memory. -/
def readU32 (l : List Nat) (i : Nat) : Nat :=
  l.getD i 0 + 256 * l.getD (i + 1) 0 + 65536 * l.getD (i + 2) 0 +
    16777216 * l.getD (i + 3) 0

/-- Overwrite four bytes at offset i with the serialisation of v,
mirroring a UINT32 store to memory. -/
def writeU32 (l : List Nat) (i : Nat) (v : Nat) : List Nat :=
  l.take i ++ u32le v ++ l.drop (i + 4)

/-- 32-bit unsigned subtraction (wrapping), as performed on UINT32 values. -/
def usub (a b : Nat) : Nat := (a + 4294967296 - b) % 4294967296

/-- Modelled from the spec: the PCAP_NG_PADDING macro of the missing
read_interface_priv.h rounds a length up to the 32-bit (4-byte) alignment of
the PCAP-NG container format. -/
def PCAP_NG_PADDING (x : Nat) : Nat := (x + 3) / 4 * 4

/-- Modelled from the spec: size in bytes of PCAP_NG_PACKET_HEADER, the
enhanced-packet-block header of the PCAP-NG container format (block type,
block length, interface id, timestamp high/low, captured length, packet
length; four bytes each). -/
def sizeofPacketHeader : Nat := 28

/-- Modelled from the spec: size in bytes of PCAP_NG_PACKET_FOOTER, the
trailing copy of the total block length. -/
def sizeofPacketFooter : Nat := 4

/-! ### Data model -/

inductive NTSTATUS where
  | STATUS_SUCCESS
  | STATUS_INVALID_PARAMETER
  | STATUS_INVALID_DEVICE_REQUEST
  | STATUS_BUFFER_TOO_SMALL
  | STATUS_ACCESS_DENIED
  | STATUS_INSUFFICIENT_RESOURCES
  | STATUS_NO_SUCH_FILE
deriving DecidableEq, Repr

inductive RESTART_STATE where
  | RestartStateInit
  | RestartStateNormal
  | RestartStateSendEof
deriving DecidableEq, Repr

inductive BLOCK_TYPE where
  | PacketBlock
  | OtherBlock
deriving DecidableEq, Repr

/-- A capture block as dequeued from the queue manager.  The single data
field stands for whichever of the Buffer / Data storage areas of the C
BLOCK_NODE is active (the code reads blockNode->Buffer when non-null and
blockNode->Data otherwise; both denote the block byte buffer). -/
structure BLOCK_NODE where
  BlockType : BLOCK_TYPE
  ProcessId : Nat
  ConnectionId : Nat
  BlockLength : Nat
  data : List Nat
deriving DecidableEq, Repr

/-- The per-reader context.  Filter arrays keep the raw C layout: element 0
is the count, elements 1..count are the ids.  ModifiedHeader and
ModifiedFooter are the reader-local scratch copies as byte lists. -/
structure READER_CONTEXT where
  SnapLength : Nat
  SnapLengthPad : Nat
  RestartState : RESTART_STATE
  RestartRequested : Bool
  CurrentBlock : Option BLOCK_NODE
  CurrentBlockOffset : Nat
  FilteredProcessIds : Option (List Nat)
  FilteredConnectionIds : Option (List Nat)
  ModifiedHeader : List Nat
  ModifiedFooter : List Nat
  DataEndOffset : Nat
  ModifiedFooterOffset : Nat
  OriginalFooterOffset : Nat
deriving DecidableEq, Repr

inductive ID_LIST_TYPE where
  | ConnectionIdList
  | ProcessIdList
deriving DecidableEq, Repr

/-- External queue-manager calls performed by the code, recorded as events. -/
inductive QmEvent where
  | getInitialBlocks (destructive : Bool)
  | cleanupBlock (b : BLOCK_NODE)
  | setReaderSnapLength (n : Nat)
  | setReaderDataEvent (h : Nat)
  | setOpenConnections
  | getStatistics
deriving DecidableEq, Repr

/-- The zero-initialised context produced by DispatchCreate (RtlZeroMemory
over the whole structure; enum value 0 is RestartStateInit). -/
def freshContext : READER_CONTEXT :=
  { SnapLength := 0, SnapLengthPad := 0,
    RestartState := RESTART_STATE.RestartStateInit, RestartRequested := false,
    CurrentBlock := none, CurrentBlockOffset := 0,
    FilteredProcessIds := none, FilteredConnectionIds := none,
    ModifiedHeader := List.replicate 28 0, ModifiedFooter := List.replicate 4 0,
    DataEndOffset := 0, ModifiedFooterOffset := 0, OriginalFooterOffset := 0 }

/-! ### The IOCTL parameter table -/

structure IOCTL_PARAMS where
  InputLength : Nat
  OutputLength : Nat
  InputLength64 : Nat
  OutputLength64 : Nat
deriving DecidableEq, Repr

/-- The gIoctlParams table of read_interface.c, in declaration order:
Restart, FilterConnections, FilterProcesses, SetSnapLength, GetSnapLength,
SetDataEvent, OpenConnections, GetStatistics.  sizeof(STATISTICS) is not in
src, so the table is parameterised by it. -/
def gIoctlParams (statSize : Nat) : List IOCTL_PARAMS :=
  [ ⟨0, 0, 0, 0⟩,
    ⟨0, 0, 0, 0⟩,
    ⟨0, 0, 0, 0⟩,
    ⟨4, 0, 4, 0⟩,
    ⟨0, 4, 0, 4⟩,
    ⟨4, 0, 8, 0⟩,
    ⟨4, 0, 4, 0⟩,
    ⟨0, statSize, 0, statSize⟩ ]

/-- Modelled from the spec: the IOCTL code constants live in the missing
read_interface_priv.h.  DispatchDeviceControl decodes the function index
from bits 2..11 and the 64-bit calling-convention flag from bit 0x1000, and
the table-order comment fixes the function index of each operation, so each
code is encoded from its table index and width flag; the device, access and
method bits common to every code are taken as zero. -/
def KPH_CTL_CODE (index : Nat) (is64 : Bool) : Nat :=
  index * 4 + (if is64 then 4096 else 0)

def IOCTL_KPH_MARK_RESTART : Nat := KPH_CTL_CODE 0 false
def IOCTL_KPH_FILTER_CONNECTIONS : Nat := KPH_CTL_CODE 1 false
def IOCTL_KPH_FILTER_PROCESSES : Nat := KPH_CTL_CODE 2 false
def IOCTL_KPH_SET_SNAP_LENGTH : Nat := KPH_CTL_CODE 3 false
def IOCTL_KPH_GET_SNAP_LENGTH : Nat := KPH_CTL_CODE 4 false
def IOCTL_KPH_SET_DATA_EVENT_32 : Nat := KPH_CTL_CODE 5 false
def IOCTL_KPH_SET_DATA_EVENT_64 : Nat := KPH_CTL_CODE 5 true
def IOCTL_KPH_SET_OPEN_CONNECTIONS : Nat := KPH_CTL_CODE 6 false
def IOCTL_KPH_GET_STATISTICS : Nat := KPH_CTL_CODE 7 false

/-- Environment facts outside this translation unit: whether the pool
allocation in SetIdList succeeds, sizeof(STATISTICS), whether this is an
_X86_ build, and the status QmSetReaderDataEvent returns. -/
structure Env where
  allocOk : Bool
  statSize : Nat
  x86Build : Bool
  qmDataEventStatus : NTSTATUS
deriving DecidableEq, Repr

/-! ### SetIdList -/

/-- SetIdList of read_interface.c.  Builds a length-prefixed id array from
the user buffer and swaps it in (InterlockedExchangePointer), freeing the
previous array afterwards.  The C code does not check the result of
ExAllocatePoolWithTag before writing ids[0] = numIds; a failed allocation is
therefore a write through a null pointer, modelled as none. -/
def SetIdList (allocOk : Bool) (ctx : READER_CONTEXT) (idListType : ID_LIST_TYPE)
    (buffer : List Nat) (bufferLen : Nat) : Option READER_CONTEXT :=
  let numIds := bufferLen / 4
  if numIds ≠ 0 then
    if allocOk then
      let ids := numIds :: (List.range numIds).map (fun i => readU32 buffer (4 * i))
      some (match idListType with
        | ID_LIST_TYPE.ConnectionIdList => { ctx with FilteredConnectionIds := some ids }
        | ID_LIST_TYPE.ProcessIdList => { ctx with FilteredProcessIds := some ids })
    else none
  else
    some (match idListType with
      | ID_LIST_TYPE.ConnectionIdList => { ctx with FilteredConnectionIds := none }
      | ID_LIST_TYPE.ProcessIdList => { ctx with FilteredProcessIds := none })

/-! ### DispatchDeviceControl -/

/-- A device-control request: the raw IOCTL code, the declared input and
output buffer lengths, and the shared system buffer (none models a null
AssociatedIrp.SystemBuffer). -/
structure CtlRequest where
  ioctl : Nat
  inBufLen : Nat
  outBufLen : Nat
  buffer : Option (List Nat)
deriving DecidableEq, Repr

/-- Result of a device-control request: completion status, the Information
byte count, the updated context, the bytes this routine itself wrote into
the system buffer (GetSnapLength), and the queue-manager calls made. -/
structure CtlOutcome where
  status : NTSTATUS
  information : Nat
  ctx : READER_CONTEXT
  written : Option (List Nat)
  events : List QmEvent
deriving DecidableEq, Repr

/-- The required input length selected from a table entry by the
calling-convention width (the is64Bit conditional of the source). -/
def requiredInLen (p : IOCTL_PARAMS) (is64 : Bool) : Nat :=
  if is64 then p.InputLength64 else p.InputLength

/-- The required output length selected from a table entry by the
calling-convention width. -/
def requiredOutLen (p : IOCTL_PARAMS) (is64 : Bool) : Nat :=
  if is64 then p.OutputLength64 else p.OutputLength

/-- The operation dispatch chain of DispatchDeviceControl (lines 193-253),
entered once the request has passed validation. -/
def ctlOperation (env : Env) (ctx : READER_CONTEXT)
    (ioctl inBufLen outBufLenReq : Nat) (buffer : Option (List Nat)) :
    Option CtlOutcome :=
  if ioctl = IOCTL_KPH_FILTER_CONNECTIONS then
    match SetIdList env.allocOk ctx ID_LIST_TYPE.ConnectionIdList
        (buffer.getD []) inBufLen with
    | none => none
    | some ctx2 => some ⟨NTSTATUS.STATUS_SUCCESS, 0, ctx2, none, []⟩
  else if ioctl = IOCTL_KPH_FILTER_PROCESSES then
    match SetIdList env.allocOk ctx ID_LIST_TYPE.ProcessIdList
        (buffer.getD []) inBufLen with
    | none => none
    | some ctx2 => some ⟨NTSTATUS.STATUS_SUCCESS, 0, ctx2, none, []⟩
  else if ioctl = IOCTL_KPH_MARK_RESTART then
    some ⟨NTSTATUS.STATUS_SUCCESS, 0, { ctx with RestartRequested := true }, none, []⟩
  else if ioctl = IOCTL_KPH_SET_SNAP_LENGTH then
    let snapLength := readU32 (buffer.getD []) 0
    if ctx.SnapLength ≠ snapLength then
      some ⟨NTSTATUS.STATUS_SUCCESS, 0,
        { ctx with SnapLength := snapLength,
                   SnapLengthPad :=
                     usub (PCAP_NG_PADDING snapLength % 4294967296) snapLength },
        none, [QmEvent.setReaderSnapLength snapLength]⟩
    else
      some ⟨NTSTATUS.STATUS_SUCCESS, 0, ctx, none, []⟩
  else if ioctl = IOCTL_KPH_GET_SNAP_LENGTH then
    some ⟨NTSTATUS.STATUS_SUCCESS, outBufLenReq, ctx, some (u32le ctx.SnapLength), []⟩
  else if ioctl = IOCTL_KPH_SET_DATA_EVENT_32 then
    some ⟨env.qmDataEventStatus, 0, ctx, none,
      [QmEvent.setReaderDataEvent (readU32 (buffer.getD []) 0)]⟩
  else if ioctl = IOCTL_KPH_SET_DATA_EVENT_64 then
    if env.x86Build then
      some ⟨NTSTATUS.STATUS_INVALID_DEVICE_REQUEST, 0, ctx, none, []⟩
    else
      some ⟨env.qmDataEventStatus, 0, ctx, none,
        [QmEvent.setReaderDataEvent (readU32 (buffer.getD []) 0)]⟩
  else if ioctl = IOCTL_KPH_SET_OPEN_CONNECTIONS then
    some ⟨NTSTATUS.STATUS_SUCCESS, 0, ctx, none, [QmEvent.setOpenConnections]⟩
  else if ioctl = IOCTL_KPH_GET_STATISTICS then
    some ⟨NTSTATUS.STATUS_SUCCESS, outBufLenReq, ctx, none, [QmEvent.getStatistics]⟩
  else
    some ⟨NTSTATUS.STATUS_INVALID_DEVICE_REQUEST, 0, ctx, none, []⟩

/-- DispatchDeviceControl of read_interface.c (the non-null context path).
Validation follows the source exactly: the range check on the decoded
function index uses a non-strict bound, so index 8 escapes it and the
gIoctlParams read at index 8 is out of bounds, modelled as none. -/
def DispatchDeviceControl (env : Env) (ctx : READER_CONTEXT) (req : CtlRequest) :
    Option CtlOutcome :=
  match req with
  | ⟨ioctl, inBufLen, outBufLen, buffer⟩ =>
    let functionIndex := (ioctl &&& 0x0ffc) >>> 2
    let is64Bit : Bool := (ioctl &&& 0x1000) != 0
    if functionIndex > (gIoctlParams env.statSize).length then
      some ⟨NTSTATUS.STATUS_INVALID_DEVICE_REQUEST, 0, ctx, none, []⟩
    else
      match (gIoctlParams env.statSize).get? functionIndex with
      | none => none
      | some p =>
        let inBufLenReq := requiredInLen p is64Bit
        let outBufLenReq := requiredOutLen p is64Bit
        if inBufLen < inBufLenReq ∨ outBufLen < outBufLenReq then
          some ⟨NTSTATUS.STATUS_BUFFER_TOO_SMALL, 0, ctx, none, []⟩
        else if (inBufLenReq ≠ 0 ∨ outBufLenReq ≠ 0) ∧ buffer = none then
          some ⟨NTSTATUS.STATUS_INVALID_PARAMETER, 0, ctx, none, []⟩
        else ctlOperation env ctx ioctl inBufLen outBufLenReq buffer

/-! ### Helper lemmas for the dispatcher -/

theorem gIoctlParams_length (s : Nat) : (gIoctlParams s).length = 8 := rfl

theorem readU32_u32le_append (v : Nat) (rest : List Nat) (hv : v < 4294967296) :
    readU32 (u32le v ++ rest) 0 = v := by
  simp [readU32, u32le, List.getD]
  omega

/-- Reduction of DispatchDeviceControl on the SetSnapLength operation. -/
theorem dispatch_set_snap (env : Env) (ctx : READER_CONTEXT) (buf : List Nat) :
    DispatchDeviceControl env ctx ⟨IOCTL_KPH_SET_SNAP_LENGTH, 4, 0, some buf⟩ =
      (if ctx.SnapLength ≠ readU32 buf 0 then
        some ⟨NTSTATUS.STATUS_SUCCESS, 0,
          { ctx with SnapLength := readU32 buf 0,
                     SnapLengthPad :=
                       usub (PCAP_NG_PADDING (readU32 buf 0) % 4294967296) (readU32 buf 0) },
          none, [QmEvent.setReaderSnapLength (readU32 buf 0)]⟩
       else some ⟨NTSTATUS.STATUS_SUCCESS, 0, ctx, none, []⟩) := rfl

/-- Reduction of DispatchDeviceControl on the GetSnapLength operation. -/
theorem dispatch_get_snap (env : Env) (ctx : READER_CONTEXT) (buf : List Nat) :
    DispatchDeviceControl env ctx ⟨IOCTL_KPH_GET_SNAP_LENGTH, 0, 4, some buf⟩ =
      some ⟨NTSTATUS.STATUS_SUCCESS, 4, ctx, some (u32le ctx.SnapLength), []⟩ := rfl

/-! ### Claim C10 -/

/-- C10: an IOCTL whose decoded function index is 8 (for example raw code
0x20) is accepted by the range check of DispatchDeviceControl even though 8
is not a valid index into gIoctlParams, and the subsequent table read is out
of bounds; the claim that every accepted index is strictly below the table
length is false. -/
theorem dispatch_accepts_table_index_eight (env : Env) (ctx : READER_CONTEXT) :
    ¬ ((32 &&& 0x0ffc) >>> 2 > (gIoctlParams env.statSize).length) ∧
    ¬ ((32 &&& 0x0ffc) >>> 2 < (gIoctlParams env.statSize).length) ∧
    (gIoctlParams env.statSize).get? ((32 &&& 0x0ffc) >>> 2) = none ∧
    DispatchDeviceControl env ctx ⟨32, 4096, 4096, some (List.replicate 8 0)⟩ = none := by
  have hfn : (32 &&& 0x0ffc) >>> 2 = 8 := by decide
  have hlen : (gIoctlParams env.statSize).length = 8 := rfl
  refine ⟨?_, ?_, ?_, rfl⟩
  · rw [hfn, hlen]; omega
  · rw [hfn, hlen]; omega
  · rw [hfn]; rfl

/-! ### Claim C4 -/

/-- C4: validation behaviour of DispatchDeviceControl against the
gIoctlParams table.  A function index strictly beyond the table yields
InvalidRequest with no effect; a buffer shorter than the required length for
the calling-convention width yields BufferTooSmall with no effect; a nonzero
required length with a null buffer yields InvalidParameter with no effect;
but a request whose function index is exactly 8 (raw code 0x20) escapes the
range check and performs an out-of-bounds table read instead of returning
InvalidRequest, so the claimed validation is broken at that one index. -/
theorem dispatchDeviceControl_validation (env : Env) (ctx : READER_CONTEXT)
    (req : CtlRequest) (p : IOCTL_PARAMS) :
    (((req.ioctl &&& 0x0ffc) >>> 2) > 8 →
      DispatchDeviceControl env ctx req =
        some ⟨NTSTATUS.STATUS_INVALID_DEVICE_REQUEST, 0, ctx, none, []⟩) ∧
    ((gIoctlParams env.statSize).get? ((req.ioctl &&& 0x0ffc) >>> 2) = some p →
      (req.inBufLen < requiredInLen p ((req.ioctl &&& 0x1000) != 0) ∨
       req.outBufLen < requiredOutLen p ((req.ioctl &&& 0x1000) != 0)) →
      DispatchDeviceControl env ctx req =
        some ⟨NTSTATUS.STATUS_BUFFER_TOO_SMALL, 0, ctx, none, []⟩) ∧
    ((gIoctlParams env.statSize).get? ((req.ioctl &&& 0x0ffc) >>> 2) = some p →
      ¬ (req.inBufLen < requiredInLen p ((req.ioctl &&& 0x1000) != 0) ∨
         req.outBufLen < requiredOutLen p ((req.ioctl &&& 0x1000) != 0)) →
      (requiredInLen p ((req.ioctl &&& 0x1000) != 0) ≠ 0 ∨
       requiredOutLen p ((req.ioctl &&& 0x1000) != 0) ≠ 0) →
      req.buffer = none →
      DispatchDeviceControl env ctx req =
        some ⟨NTSTATUS.STATUS_INVALID_PARAMETER, 0, ctx, none, []⟩) ∧
    DispatchDeviceControl env ctx ⟨32, req.inBufLen, req.outBufLen, req.buffer⟩ = none := by
  obtain ⟨ioctl, inBufLen, outBufLen, buffer⟩ := req
  dsimp only
  refine ⟨?_, ?_, ?_, rfl⟩
  · intro h
    have hgt : ((ioctl &&& 0x0ffc) >>> 2) > (gIoctlParams env.statSize).length := by
      rw [gIoctlParams_length]; exact h
    simp only [DispatchDeviceControl, if_pos hgt]
  · intro hget hshort
    obtain ⟨hlt, -⟩ := List.get?_eq_some.mp hget
    have hng : ¬ ((ioctl &&& 0x0ffc) >>> 2 > (gIoctlParams env.statSize).length) := by
      omega
    simp only [DispatchDeviceControl, if_neg hng, hget, if_pos hshort]
  · intro hget hfit hreq hnull
    obtain ⟨hlt, -⟩ := List.get?_eq_some.mp hget
    have hng : ¬ ((ioctl &&& 0x0ffc) >>> 2 > (gIoctlParams env.statSize).length) := by
      omega
    subst hnull
    simp only [DispatchDeviceControl, if_neg hng, hget, if_neg hfit]
    rw [if_pos (And.intro hreq trivial)]

/-- Witness for the validation theorem at concrete requests: an index-9 code
is rejected as InvalidRequest, a short SetSnapLength input is rejected as
BufferTooSmall, a null buffer with a required input length is rejected as
InvalidParameter, and the index-8 code makes the dispatcher read past the
table. -/
theorem dispatchDeviceControl_validation_witness :
    DispatchDeviceControl ⟨true, 64, false, NTSTATUS.STATUS_SUCCESS⟩ freshContext
        ⟨36, 0, 0, none⟩ =
      some ⟨NTSTATUS.STATUS_INVALID_DEVICE_REQUEST, 0, freshContext, none, []⟩ ∧
    DispatchDeviceControl ⟨true, 64, false, NTSTATUS.STATUS_SUCCESS⟩ freshContext
        ⟨12, 0, 0, none⟩ =
      some ⟨NTSTATUS.STATUS_BUFFER_TOO_SMALL, 0, freshContext, none, []⟩ ∧
    DispatchDeviceControl ⟨true, 64, false, NTSTATUS.STATUS_SUCCESS⟩ freshContext
        ⟨12, 4, 0, none⟩ =
      some ⟨NTSTATUS.STATUS_INVALID_PARAMETER, 0, freshContext, none, []⟩ ∧
    DispatchDeviceControl ⟨true, 64, false, NTSTATUS.STATUS_SUCCESS⟩ freshContext
        ⟨32, 4, 0, none⟩ = none := by
  refine ⟨(dispatchDeviceControl_validation _ _ ⟨36, 0, 0, none⟩ ⟨0, 0, 0, 0⟩).1 (by decide),
          (dispatchDeviceControl_validation _ _ ⟨12, 0, 0, none⟩ ⟨4, 0, 4, 0⟩).2.1 rfl
            (by decide),
          (dispatchDeviceControl_validation _ _ ⟨12, 4, 0, none⟩ ⟨4, 0, 4, 0⟩).2.2.1 rfl
            (by decide) (by decide) rfl,
          (dispatchDeviceControl_validation ⟨true, 64, false, NTSTATUS.STATUS_SUCCESS⟩
            freshContext ⟨32, 4, 0, none⟩ ⟨0, 0, 0, 0⟩).2.2.2⟩

/-! ### Claim C6 -/

/-- C6: SetIdList does not check the result of the pool allocation before
writing the id count through it, so a failed allocation is a null-pointer
write (modelled as none) rather than an abort that keeps the previous filter
array; on the successful path the fully built replacement array is swapped
in.  The claimed allocation-failure handling does not exist in the code. -/
theorem setIdList_alloc_failure (ctx : READER_CONTEXT) (buffer : List Nat) :
    SetIdList false ctx ID_LIST_TYPE.ProcessIdList buffer 4 = none ∧
    SetIdList true ctx ID_LIST_TYPE.ProcessIdList buffer 4 =
      some { ctx with FilteredProcessIds := some [1, readU32 buffer 0] } ∧
    DispatchDeviceControl ⟨false, 64, false, NTSTATUS.STATUS_SUCCESS⟩ ctx
      ⟨IOCTL_KPH_FILTER_PROCESSES, 4, 0, some buffer⟩ = none ∧
    DispatchDeviceControl ⟨true, 64, false, NTSTATUS.STATUS_SUCCESS⟩ ctx
      ⟨IOCTL_KPH_FILTER_PROCESSES, 4, 0, some buffer⟩ =
      some ⟨NTSTATUS.STATUS_SUCCESS, 0,
        { ctx with FilteredProcessIds := some [1, readU32 buffer 0] }, none, []⟩ := by
  exact ⟨rfl, rfl, rfl, rfl⟩

/-! ### Claim C8 -/

/-- C8: on one reader context, GetSnapLength performed after SetSnapLength
with value v (no intervening SetSnapLength) writes the four-byte
serialisation of v to the output buffer and reports 4 bytes of output, for
every 32-bit v including 0. -/
theorem getSnapLength_after_setSnapLength (env : Env) (ctx : READER_CONTEXT)
    (v : Nat) (rest outBuf : List Nat) (hv : v < 4294967296) :
    ∃ o1 o2,
      DispatchDeviceControl env ctx
          ⟨IOCTL_KPH_SET_SNAP_LENGTH, 4, 0, some (u32le v ++ rest)⟩ = some o1 ∧
      o1.status = NTSTATUS.STATUS_SUCCESS ∧ o1.ctx.SnapLength = v ∧
      DispatchDeviceControl env o1.ctx
          ⟨IOCTL_KPH_GET_SNAP_LENGTH, 0, 4, some outBuf⟩ = some o2 ∧
      o2.status = NTSTATUS.STATUS_SUCCESS ∧
      o2.written = some (u32le v) ∧ o2.information = 4 := by
  have hread : readU32 (u32le v ++ rest) 0 = v := readU32_u32le_append v rest hv
  by_cases hc : ctx.SnapLength = v
  · refine ⟨⟨NTSTATUS.STATUS_SUCCESS, 0, ctx, none, []⟩,
      ⟨NTSTATUS.STATUS_SUCCESS, 4, ctx, some (u32le ctx.SnapLength), []⟩, ?_, rfl, hc,
      dispatch_get_snap env ctx outBuf, rfl, by rw [hc], rfl⟩
    rw [dispatch_set_snap, hread, if_neg (by simp [hc])]
  · refine ⟨⟨NTSTATUS.STATUS_SUCCESS, 0,
      { ctx with SnapLength := v,
                 SnapLengthPad := usub (PCAP_NG_PADDING v % 4294967296) v }, none,
      [QmEvent.setReaderSnapLength v]⟩,
      ⟨NTSTATUS.STATUS_SUCCESS, 4,
        { ctx with SnapLength := v,
                   SnapLengthPad := usub (PCAP_NG_PADDING v % 4294967296) v },
        some (u32le v), []⟩, ?_, rfl, rfl, ?_, rfl, rfl, rfl⟩
    · rw [dispatch_set_snap, hread, if_pos hc]
    · exact dispatch_get_snap env _ outBuf

/-- Witness for the snap-length round trip at v = 0 on a context whose snap
length is nonzero. -/
theorem getSnapLength_after_setSnapLength_witness :
    ∃ o1 o2,
      DispatchDeviceControl ⟨true, 64, false, NTSTATUS.STATUS_SUCCESS⟩
          { freshContext with SnapLength := 7 }
          ⟨IOCTL_KPH_SET_SNAP_LENGTH, 4, 0, some (u32le 0 ++ [])⟩ = some o1 ∧
      o1.status = NTSTATUS.STATUS_SUCCESS ∧ o1.ctx.SnapLength = 0 ∧
      DispatchDeviceControl ⟨true, 64, false, NTSTATUS.STATUS_SUCCESS⟩ o1.ctx
          ⟨IOCTL_KPH_GET_SNAP_LENGTH, 0, 4, some (List.replicate 4 0)⟩ = some o2 ∧
      o2.status = NTSTATUS.STATUS_SUCCESS ∧
      o2.written = some (u32le 0) ∧ o2.information = 4 :=
  getSnapLength_after_setSnapLength ⟨true, 64, false, NTSTATUS.STATUS_SUCCESS⟩
    { freshContext with SnapLength := 7 } 0 [] (List.replicate 4 0) (by decide)

/-! ### The stream emitter: DispatchRead -/

/-- 32-bit wrapping addition, as performed on UINT32 values. -/
def uadd (a b : Nat) : Nat := (a + b) % 4294967296

/-- The filter-id scan of DispatchRead (lines 331-352): indices 1 .. ids[0]
of the raw length-prefixed array are compared against the block id. -/
def idListMatches (ids : List Nat) (x : Nat) : Bool :=
  (List.range (ids.getD 0 0)).any (fun i => ids.getD (i + 1) 0 == x)

/-- The filter decision of DispatchRead for a dequeued packet block (lines
325-347): the process-id filter is consulted first and the connection-id
filter only if the process id matched nothing; an absent array matches
nothing. -/
def filterMatch (ctx : READER_CONTEXT) (b : BLOCK_NODE) : Bool :=
  (match ctx.FilteredProcessIds with
   | some ids => idListMatches ids b.ProcessId
   | none => false) ||
  (match ctx.FilteredConnectionIds with
   | some ids => idListMatches ids b.ConnectionId
   | none => false)

/-- State of the destination and block cursors after a copy pass. -/
structure CopyOut where
  readOffset : Nat
  blockOffset : Nat
  out : List Nat
deriving DecidableEq, Repr

/-- Copy fixed-up packet header (lines 383-393). -/
def copyHeaderZone (ctx : READER_CONTEXT) (readLength : Nat) (c : CopyOut) : CopyOut :=
  if c.blockOffset < 28 then
    let n := min (usub readLength c.readOffset) (usub 28 c.blockOffset)
    ⟨uadd c.readOffset n, uadd c.blockOffset n,
      c.out ++ (List.range n).map (fun i => ctx.ModifiedHeader.getD (c.blockOffset + i) 0)⟩
  else c

/-- Copy truncated packet data (lines 395-408). -/
def copyDataZone (ctx : READER_CONTEXT) (blockData : List Nat) (readLength : Nat)
    (c : CopyOut) : CopyOut :=
  if 28 ≤ c.blockOffset ∧ c.blockOffset < ctx.DataEndOffset ∧ c.readOffset < readLength then
    let n := min (usub readLength c.readOffset) (usub ctx.DataEndOffset c.blockOffset)
    ⟨uadd c.readOffset n, uadd c.blockOffset n,
      c.out ++ (List.range n).map (fun i => blockData.getD (c.blockOffset + i) 0)⟩
  else c

/-- Pad truncated packet data, then skip the rest of the packet data up to
the original footer (lines 410-426). -/
def copyPadZone (ctx : READER_CONTEXT) (readLength : Nat) (c : CopyOut) : CopyOut :=
  if ctx.DataEndOffset ≤ c.blockOffset ∧ c.blockOffset < ctx.OriginalFooterOffset ∧
      c.readOffset < readLength then
    let n := min (usub readLength c.readOffset) (usub ctx.ModifiedFooterOffset c.blockOffset)
    let bo := uadd c.blockOffset n
    ⟨uadd c.readOffset n,
      if ctx.ModifiedFooterOffset ≤ bo then ctx.OriginalFooterOffset else bo,
      c.out ++ List.replicate n 0⟩
  else c

/-- Copy fixed-up packet footer (lines 428-440). -/
def copyFooterZone (ctx : READER_CONTEXT) (blockLength readLength : Nat)
    (c : CopyOut) : CopyOut :=
  if ctx.OriginalFooterOffset ≤ c.blockOffset ∧ c.readOffset < readLength then
    let n := min (usub readLength c.readOffset) (usub blockLength c.blockOffset)
    ⟨uadd c.readOffset n, uadd c.blockOffset n,
      c.out ++ (List.range n).map
        (fun i => ctx.ModifiedFooter.getD (usub c.blockOffset ctx.OriginalFooterOffset + i) 0)⟩
  else c

/-- One pass of the copy section of the DispatchRead loop (lines 379-449).
For a block being trimmed (nonzero ModifiedHeader block-type word) the four
zone sections run in order, each guarded as in the source; otherwise the
block streams verbatim.  out is the list of bytes written so far; the C
code writes at readBuffer + readOffset and readOffset always equals the
number of bytes already written in this call. -/
def copyBlock (ctx : READER_CONTEXT) (b : BLOCK_NODE)
    (readLength readOffset blockOffset : Nat) (out : List Nat) : CopyOut :=
  let blockData := b.data
  let blockLength := b.BlockLength
  if readU32 ctx.ModifiedHeader 0 ≠ 0 then
    copyFooterZone ctx blockLength readLength
      (copyPadZone ctx readLength
        (copyDataZone ctx blockData readLength
          (copyHeaderZone ctx readLength ⟨readOffset, blockOffset, out⟩)))
  else
    let n := min (usub readLength readOffset) (usub blockLength blockOffset)
    ⟨uadd readOffset n, uadd blockOffset n,
      out ++ (List.range n).map (fun i => blockData.getD (blockOffset + i) 0)⟩

/-- The overlay state installed when a dequeued packet block is to be
trimmed (lines 362-375): the boundary offsets and the fixed-up scratch
header and footer, with the length fields rewritten to the new total and
the captured length rewritten to the snap length. -/
def trimOverlay (ctx : READER_CONTEXT) (b : BLOCK_NODE) : READER_CONTEXT :=
  let dataEnd := uadd 28 ctx.SnapLength
  let modFoot := uadd dataEnd ctx.SnapLengthPad
  let origFoot := usub (readU32 b.data 4) 4
  let newLen := uadd modFoot 4
  { ctx with
      DataEndOffset := dataEnd,
      ModifiedFooterOffset := modFoot,
      OriginalFooterOffset := origFoot,
      ModifiedHeader :=
        writeU32 (writeU32 ((List.range 28).map (fun i => b.data.getD i 0))
          4 newLen) 20 ctx.SnapLength,
      ModifiedFooter :=
        writeU32 ((List.range 4).map (fun i => b.data.getD (origFoot + i) 0))
          0 newLen }

/-- Result of the DispatchRead while loop. -/
structure LoopOut where
  ctx : READER_CONTEXT
  queue : List BLOCK_NODE
  readOffset : Nat
  out : List Nat
  events : List QmEvent
  trace : List RESTART_STATE
deriving DecidableEq, Repr

/-- The while loop of DispatchRead (lines 305-456), with an explicit fuel
argument for termination; the top level supplies fuel sufficient for every
well-formed state, and exhausted fuel returns none (the corresponding C
states would make no progress).  During the loop the locals blockNode and
blockOffset are authoritative and the CurrentBlock fields of the threaded
context are stale, exactly as in the source; they are persisted at every
exit (lines 458-459).  The trace records each assignment to RestartState. -/
def readLoop (fuel : Nat) (ctx : READER_CONTEXT) (queue : List BLOCK_NODE)
    (blockNode : Option BLOCK_NODE) (blockOffset readLength readOffset : Nat)
    (out : List Nat) (events : List QmEvent) (trace : List RESTART_STATE) :
    Option LoopOut :=
  match fuel with
  | 0 => none
  | fuel + 1 =>
    if readOffset < readLength then
      match blockNode with
      | some b =>
        let c := copyBlock ctx b readLength readOffset blockOffset out
        if b.BlockLength ≤ c.blockOffset then
          readLoop fuel ctx queue none 0 readLength c.readOffset c.out
            (events ++ [QmEvent.cleanupBlock b]) trace
        else
          readLoop fuel ctx queue (some b) c.blockOffset readLength c.readOffset c.out
            events trace
      | none =>
        if ctx.RestartRequested then
          let st := if readOffset ≠ 0 then RESTART_STATE.RestartStateSendEof
                    else RESTART_STATE.RestartStateInit
          let ctx2 := { ctx with RestartRequested := false, RestartState := st,
                                 CurrentBlock := none, CurrentBlockOffset := blockOffset }
          some ⟨ctx2, queue, readOffset, out, events, trace ++ [st]⟩
        else
          match queue with
          | [] =>
            some ⟨{ ctx with CurrentBlock := none, CurrentBlockOffset := 0 },
                  [], readOffset, out, events, trace⟩
          | b :: rest =>
            let ctx := { ctx with ModifiedHeader := writeU32 ctx.ModifiedHeader 0 0 }
            if b.BlockType = BLOCK_TYPE.PacketBlock then
              if filterMatch ctx b then
                readLoop fuel ctx rest none 0 readLength readOffset out
                  (events ++ [QmEvent.cleanupBlock b]) trace
              else
                let ctx :=
                  if ctx.SnapLength ≠ 0 ∧ ctx.SnapLength < readU32 b.data 20 then
                    trimOverlay ctx b
                  else ctx
                let c := copyBlock ctx b readLength readOffset 0 out
                if b.BlockLength ≤ c.blockOffset then
                  readLoop fuel ctx rest none 0 readLength c.readOffset c.out
                    (events ++ [QmEvent.cleanupBlock b]) trace
                else
                  readLoop fuel ctx rest (some b) c.blockOffset readLength c.readOffset c.out
                    events trace
            else
              let c := copyBlock ctx b readLength readOffset 0 out
              if b.BlockLength ≤ c.blockOffset then
                readLoop fuel ctx rest none 0 readLength c.readOffset c.out
                  (events ++ [QmEvent.cleanupBlock b]) trace
              else
                readLoop fuel ctx rest (some b) c.blockOffset readLength c.readOffset c.out
                  events trace
    else
      some ⟨{ ctx with CurrentBlock := blockNode, CurrentBlockOffset := blockOffset },
            queue, readOffset, out, events, trace⟩

/-- Result of one DispatchRead call. -/
structure ReadResult where
  status : NTSTATUS
  information : Nat
  ctx : Option READER_CONTEXT
  queue : List BLOCK_NODE
  out : List Nat
  events : List QmEvent
  stateTrace : List RESTART_STATE
deriving DecidableEq, Repr

/-- DispatchRead of read_interface.c (lines 263-461).  bufferPresent models
whether AssociatedIrp.SystemBuffer is null and ctx? models FsContext2;
queue is the reader's pending-block sequence inside the queue manager, from
which QmDequeueBlock pops the head.  QmGetInitialBlocks is recorded as an
event (its effect is on the queue-manager side).  The result carries the
completion status and byte count, the persisted context, the bytes written
to the destination in order, the queue-manager calls made, and the
successive values assigned to RestartState. -/
def DispatchRead (bufferPresent : Bool) (ctx? : Option READER_CONTEXT)
    (queue : List BLOCK_NODE) (readLength : Nat) : Option ReadResult :=
  if bufferPresent = false then
    some ⟨NTSTATUS.STATUS_INVALID_PARAMETER, 0, ctx?, queue, [], [], []⟩
  else
    match ctx? with
    | none => some ⟨NTSTATUS.STATUS_INVALID_PARAMETER, 0, none, queue, [], [], []⟩
    | some ctx =>
      match ctx.RestartState with
      | RESTART_STATE.RestartStateSendEof =>
        some ⟨NTSTATUS.STATUS_SUCCESS, 0,
          some { ctx with RestartState := RESTART_STATE.RestartStateInit }, queue, [], [],
          [RESTART_STATE.RestartStateInit]⟩
      | RESTART_STATE.RestartStateInit =>
        let ctx1 := { ctx with RestartState := RESTART_STATE.RestartStateNormal }
        match readLoop (readLength + queue.length + 1) ctx1 queue ctx1.CurrentBlock
            ctx1.CurrentBlockOffset readLength 0 [] [QmEvent.getInitialBlocks false]
            [RESTART_STATE.RestartStateNormal] with
        | none => none
        | some r =>
          some ⟨NTSTATUS.STATUS_SUCCESS, r.readOffset, some r.ctx, r.queue, r.out,
            r.events, r.trace⟩
      | RESTART_STATE.RestartStateNormal =>
        match readLoop (readLength + queue.length + 1) ctx queue ctx.CurrentBlock
            ctx.CurrentBlockOffset readLength 0 [] [] [] with
        | none => none
        | some r =>
          some ⟨NTSTATUS.STATUS_SUCCESS, r.readOffset, some r.ctx, r.queue, r.out,
            r.events, r.trace⟩

/-! ### The rendered stream -/

/-- The truncated rendering of a packet block under snap length snapB with
padding padB: the fixed-up header, the first snapB payload bytes, zero
padding, and the fixed-up footer. -/
def renderTrim (data : List Nat) (snapB padB : Nat) : List Nat :=
  writeU32 (writeU32 ((List.range 28).map (fun i => data.getD i 0)) 4
      (28 + snapB + padB + 4)) 20 snapB
    ++ (List.range snapB).map (fun i => data.getD (28 + i) 0)
    ++ List.replicate padB 0
    ++ u32le (28 + snapB + padB + 4)

/-- Whether the filter check of DispatchRead suppresses a dequeued block. -/
def suppressedBlock (ctx : READER_CONTEXT) (b : BLOCK_NODE) : Bool :=
  match b.BlockType with
  | BLOCK_TYPE.OtherBlock => false
  | BLOCK_TYPE.PacketBlock => filterMatch ctx b

/-- The bytes a freshly dequeued block contributes to the reader's logical
stream under the current context: nothing if suppressed, the truncated
rendering if trimming applies, the raw block bytes otherwise. -/
def renderBlock (ctx : READER_CONTEXT) (b : BLOCK_NODE) : List Nat :=
  match b.BlockType with
  | BLOCK_TYPE.OtherBlock => b.data
  | BLOCK_TYPE.PacketBlock =>
    if suppressedBlock ctx b then []
    else if ctx.SnapLength ≠ 0 ∧ ctx.SnapLength < readU32 b.data 20 then
      renderTrim b.data ctx.SnapLength ctx.SnapLengthPad
    else b.data

/-- Map a block cursor of a trimmed block to a position in its rendered
stream: the gap between ModifiedFooterOffset and OriginalFooterOffset is
never occupied by the cursor and collapses to nothing. -/
def streamPos (ctx : READER_CONTEXT) (bo : Nat) : Nat :=
  if bo < ctx.OriginalFooterOffset then bo
  else bo - (ctx.OriginalFooterOffset - ctx.ModifiedFooterOffset)

/-- The bytes still to be delivered from a held block at cursor bo. -/
def remainingOfBlock (ctx : READER_CONTEXT) (b : BLOCK_NODE) (bo : Nat) : List Nat :=
  if readU32 ctx.ModifiedHeader 0 ≠ 0 then
    (renderTrim b.data (ctx.DataEndOffset - 28)
        (ctx.ModifiedFooterOffset - ctx.DataEndOffset)).drop (streamPos ctx bo)
  else b.data.drop bo

/-- The reader's logical stream: the remainder of the held block followed by
the renderings of the queued blocks in dequeue order. -/
def logicalStream (ctx : READER_CONTEXT) (queue : List BLOCK_NODE) : List Nat :=
  (match ctx.CurrentBlock with
   | none => []
   | some b => remainingOfBlock ctx b ctx.CurrentBlockOffset) ++
  (queue.map (renderBlock ctx)).flatten

/-! ### Well-formedness -/

/-- Well-formed capture block: the BlockLength field matches the buffer, the
buffer is a byte buffer of 32-bit size, and a packet block carries a
consistent PCAP-NG header (nonzero block-type word, matching length word,
and room for the header, the aligned captured data and the footer). -/
def WFblock (b : BLOCK_NODE) : Prop :=
  b.BlockLength = b.data.length ∧
  b.data.length < 4294967296 ∧
  (∀ x ∈ b.data, x < 256) ∧
  (b.BlockType = BLOCK_TYPE.PacketBlock →
    readU32 b.data 0 ≠ 0 ∧
    readU32 b.data 4 = b.BlockLength ∧
    32 + PCAP_NG_PADDING (readU32 b.data 20) ≤ b.BlockLength)

/-- Base well-formedness of a reader context: a 32-bit snap length with the
consistent derived pad and the fixed-size scratch header. -/
def WFctxBase (ctx : READER_CONTEXT) : Prop :=
  ctx.SnapLength < 4294967296 ∧
  ctx.SnapLengthPad = usub (PCAP_NG_PADDING ctx.SnapLength % 4294967296) ctx.SnapLength ∧
  ctx.ModifiedHeader.length = 28

/-- Consistency of a held block (given as the loop locals blockNode and
blockOffset) with the persisted overlay state of the context. -/
def WFblockState (ctx : READER_CONTEXT) (blockNode : Option BLOCK_NODE) (bo : Nat) : Prop :=
  match blockNode with
  | none => True
  | some b =>
    WFblock b ∧
    (if readU32 ctx.ModifiedHeader 0 ≠ 0 then
      b.BlockType = BLOCK_TYPE.PacketBlock ∧
      28 ≤ ctx.DataEndOffset ∧
      ctx.DataEndOffset ≤ ctx.ModifiedFooterOffset ∧
      ctx.ModifiedFooterOffset ≤ ctx.OriginalFooterOffset ∧
      ctx.OriginalFooterOffset + 4 = b.BlockLength ∧
      ctx.ModifiedHeader =
        writeU32 (writeU32 ((List.range 28).map (fun i => b.data.getD i 0)) 4
          (ctx.ModifiedFooterOffset + 4)) 20 (ctx.DataEndOffset - 28) ∧
      ctx.ModifiedFooter = u32le (ctx.ModifiedFooterOffset + 4) ∧
      (bo ≤ ctx.ModifiedFooterOffset ∨ ctx.OriginalFooterOffset ≤ bo) ∧
      bo < b.BlockLength
    else
      bo < b.BlockLength)

/-- Full well-formedness of a persisted reader context. -/
def WFreader (ctx : READER_CONTEXT) : Prop :=
  WFctxBase ctx ∧ WFblockState ctx ctx.CurrentBlock ctx.CurrentBlockOffset

instance (b : BLOCK_NODE) : Decidable (WFblock b) := by
  unfold WFblock
  exact inferInstance

instance (ctx : READER_CONTEXT) : Decidable (WFctxBase ctx) := by
  unfold WFctxBase
  exact inferInstance

instance (ctx : READER_CONTEXT) (bn : Option BLOCK_NODE) (bo : Nat) :
    Decidable (WFblockState ctx bn bo) := by
  unfold WFblockState
  match bn with
  | none => exact inferInstance
  | some b => exact inferInstance

instance (ctx : READER_CONTEXT) : Decidable (WFreader ctx) := by
  unfold WFreader
  exact inferInstance

/-! ### Arithmetic and list helper lemmas -/

theorem usub_eq (a b : Nat) (hb : b ≤ a) (ha : a < 4294967296) : usub a b = a - b := by
  unfold usub; omega

theorem uadd_eq (a b : Nat) (h : a + b < 4294967296) : uadd a b = a + b := by
  unfold uadd; omega

theorem pad_ge (x : Nat) : x ≤ PCAP_NG_PADDING x := by
  unfold PCAP_NG_PADDING; omega

theorem pad_lt (x : Nat) : PCAP_NG_PADDING x < x + 4 := by
  unfold PCAP_NG_PADDING; omega

theorem pad_mono {x y : Nat} (h : x ≤ y) : PCAP_NG_PADDING x ≤ PCAP_NG_PADDING y := by
  unfold PCAP_NG_PADDING; omega

theorem length_u32le (v : Nat) : (u32le v).length = 4 := rfl

theorem length_writeU32 (l : List Nat) (i v : Nat) (hi : i + 4 ≤ l.length) :
    (writeU32 l i v).length = l.length := by
  simp [writeU32, u32le]
  omega

theorem getD_writeU32_lt (l : List Nat) (i v j : Nat) (hj : j < i) (hi : i ≤ l.length) :
    (writeU32 l i v).getD j 0 = l.getD j 0 := by
  have hlen : (l.take i).length = i := by simp [List.length_take]; omega
  unfold writeU32
  rw [List.getD_append (l.take i ++ u32le v) (l.drop (i + 4)) 0 j
    (by simp only [List.length_append, hlen, length_u32le]; omega)]
  rw [List.getD_append (l.take i) (u32le v) 0 j (by rw [hlen]; omega)]
  rw [List.getD_eq_getElem _ _ (by rw [hlen]; omega), List.getD_eq_getElem _ _ (by omega)]
  exact List.getElem_take l

theorem getD_writeU32_add (l : List Nat) (i v k : Nat) (hk : k < 4) (hi : i ≤ l.length) :
    (writeU32 l i v).getD (i + k) 0 = (u32le v).getD k 0 := by
  have hlen : (l.take i).length = i := by simp [List.length_take]; omega
  unfold writeU32
  rw [List.getD_append (l.take i ++ u32le v) (l.drop (i + 4)) 0 (i + k)
    (by simp only [List.length_append, hlen, length_u32le]; omega)]
  rw [List.getD_append_right (l.take i) (u32le v) 0 (i + k) (by rw [hlen]; omega)]
  rw [hlen]
  have hik : i + k - i = k := by omega
  rw [hik]

theorem getD_writeU32_ge (l : List Nat) (i v j : Nat) (hj : i + 4 ≤ j) (hi : i + 4 ≤ l.length) :
    (writeU32 l i v).getD j 0 = l.getD j 0 := by
  have hlen : (l.take i).length = i := by simp [List.length_take]; omega
  unfold writeU32
  rw [List.getD_append_right (l.take i ++ u32le v) (l.drop (i + 4)) 0 j
    (by simp only [List.length_append, hlen, length_u32le]; omega)]
  simp only [List.length_append, hlen, length_u32le]
  by_cases hcase : j < l.length
  · rw [List.getD_eq_getElem _ _ (by simp [List.length_drop]; omega),
      List.getD_eq_getElem _ _ (by omega)]
    simp only [List.getElem_drop]
    congr 1
    omega
  · rw [List.getD_eq_default _ _ (by simp [List.length_drop]; omega),
      List.getD_eq_default _ _ (by omega)]

theorem sum_u32 (v : Nat) :
    v % 256 + 256 * (v / 256 % 256) + 65536 * (v / 65536 % 256) +
      16777216 * (v / 16777216 % 256) = v % 4294967296 := by
  omega

theorem readU32_u32le (v : Nat) : readU32 (u32le v) 0 = v % 4294967296 := by
  simp [readU32, u32le, List.getD]
  omega

theorem readU32_writeU32_same (l : List Nat) (i v : Nat) (hi : i + 4 ≤ l.length) :
    readU32 (writeU32 l i v) i = v % 4294967296 := by
  have h0 := getD_writeU32_add l i v 0 (by omega) (by omega)
  have h1 := getD_writeU32_add l i v 1 (by omega) (by omega)
  have h2 := getD_writeU32_add l i v 2 (by omega) (by omega)
  have h3 := getD_writeU32_add l i v 3 (by omega) (by omega)
  simp only [Nat.add_zero] at h0
  unfold readU32
  rw [h0, h1, h2, h3]
  simp [u32le, List.getD]
  omega

theorem readU32_writeU32_disjoint (l : List Nat) (i v j : Nat)
    (hd : j + 4 ≤ i ∨ i + 4 ≤ j) (hi : i + 4 ≤ l.length) :
    readU32 (writeU32 l i v) j = readU32 l j := by
  unfold readU32
  rcases hd with hd | hd
  · rw [getD_writeU32_lt l i v j (by omega) (by omega),
      getD_writeU32_lt l i v (j + 1) (by omega) (by omega),
      getD_writeU32_lt l i v (j + 2) (by omega) (by omega),
      getD_writeU32_lt l i v (j + 3) (by omega) (by omega)]
  · rw [getD_writeU32_ge l i v j (by omega) (by omega),
      getD_writeU32_ge l i v (j + 1) (by omega) (by omega),
      getD_writeU32_ge l i v (j + 2) (by omega) (by omega),
      getD_writeU32_ge l i v (j + 3) (by omega) (by omega)]

theorem getD_range_map (f : Nat → Nat) (n k : Nat) (hk : k < n) :
    ((List.range n).map f).getD k 0 = f k := by
  rw [List.getD_eq_getElem _ _ (by simp; omega)]
  simp

theorem range_map_getD (l : List Nat) (s n : Nat) (h : s + n ≤ l.length) :
    (List.range n).map (fun i => l.getD (s + i) 0) = (l.drop s).take n := by
  apply List.ext_getElem
  · simp; omega
  · intro k h1 h2
    simp only [List.length_map, List.length_range] at h1
    simp only [List.getElem_map, List.getElem_range, List.getElem_take, List.getElem_drop]
    rw [List.getD_eq_getElem _ _ (by omega)]

/-! ### Structure of the trimmed rendering -/

theorem length_hdrmap (data : List Nat) (tot snapB : Nat) :
    (writeU32 (writeU32 ((List.range 28).map (fun i => data.getD i 0)) 4 tot) 20 snapB).length
      = 28 := by
  have h1 : ((List.range 28).map (fun i => data.getD i 0)).length = 28 := by simp
  have h2 : (writeU32 ((List.range 28).map (fun i => data.getD i 0)) 4 tot).length = 28 := by
    rw [length_writeU32 _ _ _ (by rw [h1]; omega)]
    exact h1
  rw [length_writeU32 _ _ _ (by rw [h2]; omega)]
  exact h2

theorem renderTrim_length (data : List Nat) (snapB padB : Nat) :
    (renderTrim data snapB padB).length = 28 + snapB + padB + 4 := by
  unfold renderTrim
  rw [List.length_append, List.length_append, List.length_append, length_hdrmap]
  simp only [List.length_map, List.length_range, List.length_replicate, length_u32le]

theorem readU32_hdrmap_zero (data : List Nat) (tot snapB : Nat) :
    readU32 (writeU32 (writeU32 ((List.range 28).map (fun i => data.getD i 0)) 4 tot)
      20 snapB) 0 = readU32 data 0 := by
  have h1 : ((List.range 28).map (fun i => data.getD i 0)).length = 28 := by simp
  have h2 : (writeU32 ((List.range 28).map (fun i => data.getD i 0)) 4 tot).length = 28 := by
    rw [length_writeU32 _ _ _ (by rw [h1]; omega)]
    exact h1
  rw [readU32_writeU32_disjoint _ _ _ _ (Or.inl (by omega)) (by rw [h2]; omega)]
  rw [readU32_writeU32_disjoint _ _ _ _ (Or.inl (by omega)) (by rw [h1]; omega)]
  unfold readU32
  rw [getD_range_map _ _ _ (by omega), getD_range_map _ _ _ (by omega),
    getD_range_map _ _ _ (by omega), getD_range_map _ _ _ (by omega)]

theorem renderTrim_drop (data : List Nat) (snapB padB pos : Nat) :
    (renderTrim data snapB padB).drop pos =
      (writeU32 (writeU32 ((List.range 28).map (fun i => data.getD i 0)) 4
          (28 + snapB + padB + 4)) 20 snapB).drop pos ++
        ((List.range snapB).map (fun i => data.getD (28 + i) 0)).drop (pos - 28) ++
        (List.replicate padB 0).drop (pos - 28 - snapB) ++
        (u32le (28 + snapB + padB + 4)).drop (pos - 28 - snapB - padB) := by
  unfold renderTrim
  rw [List.drop_append_eq_append_drop, List.drop_append_eq_append_drop,
    List.drop_append_eq_append_drop]
  simp only [List.length_append, length_hdrmap, List.length_map, List.length_range,
    List.length_replicate]
  have e1 : pos - (28 + snapB) = pos - 28 - snapB := by omega
  have e2 : pos - (28 + snapB + padB) = pos - 28 - snapB - padB := by omega
  rw [e1, e2]

theorem take_congr_drop (l : List Nat) (s m n : Nat)
    (h : min m (l.length - s) = min n (l.length - s)) :
    (l.drop s).take m = (l.drop s).take n :=
  List.take_eq_take.mpr (by rw [List.length_drop]; omega)

theorem drop_take_eq_range_map (l : List Nat) (s n : Nat) (h : s + n ≤ l.length) :
    (l.drop s).take n = (List.range n).map (fun i => l.getD (s + i) 0) :=
  (range_map_getD l s n h).symm

theorem range_map_drop_take (f : Nat → Nat) (m s n : Nat) (h : s + n ≤ m) :
    (((List.range m).map f).drop s).take n = (List.range n).map (fun i => f (s + i)) := by
  apply List.ext_getElem
  · simp; omega
  · intro k h1 h2
    simp only [List.length_take, List.length_drop, List.length_map, List.length_range] at h1
    simp only [List.getElem_take, List.getElem_drop, List.getElem_map, List.getElem_range]

/-! ### The verbatim copy pass -/

theorem copyBlock_plain (ctx : READER_CONTEXT) (b : BLOCK_NODE) (L ro bo : Nat)
    (out : List Nat)
    (hflag : readU32 ctx.ModifiedHeader 0 = 0)
    (hlen : b.BlockLength = b.data.length)
    (hsize : b.data.length < 4294967296)
    (hL : L < 4294967296) (hro : ro < L) (hbo : bo ≤ b.BlockLength) :
    copyBlock ctx b L ro bo out =
      ⟨ro + min (L - ro) (b.BlockLength - bo), bo + min (L - ro) (b.BlockLength - bo),
        out ++ (b.data.drop bo).take (L - ro)⟩ := by
  simp only [copyBlock]
  rw [if_neg (by simp [hflag])]
  rw [usub_eq L ro (by omega) hL, usub_eq b.BlockLength bo hbo (by omega)]
  rw [uadd_eq _ _ (by omega), uadd_eq _ _ (by omega)]
  congr 1
  rw [range_map_getD b.data bo _ (by omega)]
  rw [take_congr_drop b.data bo _ (L - ro) (by omega)]

/-! ### The trimmed copy pass -/

/-- Specification of a trimmed copy pass entered with ro bytes already
written and the block cursor at bo: the pass appends the next
min (L - ro) (remaining) bytes of the rendered stream R, and leaves the
cursor either exactly at the end of the block (ready for release) or at a
valid position mapping onto the new stream position. -/
def TrimCopySpec (ctx : READER_CONTEXT) (BL L ro bo : Nat) (out R : List Nat)
    (c : CopyOut) : Prop :=
  c.readOffset = ro + min (L - ro) (R.length - streamPos ctx bo) ∧
  c.out = out ++ (R.drop (streamPos ctx bo)).take (L - ro) ∧
  ((streamPos ctx bo + min (L - ro) (R.length - streamPos ctx bo) = R.length ∧
      c.blockOffset = BL) ∨
   (streamPos ctx bo + min (L - ro) (R.length - streamPos ctx bo) < R.length ∧
      c.blockOffset < BL ∧
      (c.blockOffset ≤ ctx.ModifiedFooterOffset ∨
        ctx.OriginalFooterOffset ≤ c.blockOffset) ∧
      streamPos ctx c.blockOffset =
        streamPos ctx bo + min (L - ro) (R.length - streamPos ctx bo)))

theorem TrimCopySpec_id (ctx : READER_CONTEXT) (BL L : Nat) (R : List Nat) (c : CopyOut)
    (hro : L ≤ c.readOffset)
    (hval : c.blockOffset ≤ ctx.ModifiedFooterOffset ∨
      ctx.OriginalFooterOffset ≤ c.blockOffset)
    (hbo : c.blockOffset < BL)
    (hpos : streamPos ctx c.blockOffset < R.length) :
    TrimCopySpec ctx BL L c.readOffset c.blockOffset c.out R c := by
  have h0 : L - c.readOffset = 0 := by omega
  refine ⟨by rw [h0]; simp, by rw [h0]; simp,
    Or.inr ⟨by rw [h0]; simpa using hpos, hbo, hval, by rw [h0]; simp⟩⟩

theorem TrimCopySpec_comp (ctx : READER_CONTEXT) (BL L ro bo : Nat) (out R : List Nat)
    (k bo2 : Nat) (c : CopyOut)
    (hk1 : k ≤ L - ro) (hk2 : k ≤ R.length - streamPos ctx bo)
    (hpos2 : streamPos ctx bo2 = streamPos ctx bo + k)
    (h2 : TrimCopySpec ctx BL L (ro + k) bo2
      (out ++ (R.drop (streamPos ctx bo)).take k) R c) :
    TrimCopySpec ctx BL L ro bo out R c := by
  obtain ⟨ha, hb, hc⟩ := h2
  refine ⟨?_, ?_, ?_⟩
  · rw [ha, hpos2]
    omega
  · rw [hb, hpos2]
    rw [List.append_assoc]
    congr 1
    have hsplit : L - ro = k + (L - (ro + k)) := by omega
    rw [hsplit, List.take_add, List.drop_drop]
  · have he : streamPos ctx bo + min (L - ro) (R.length - streamPos ctx bo) =
        streamPos ctx bo2 + min (L - (ro + k)) (R.length - streamPos ctx bo2) := by
      rw [hpos2]
      omega
    rw [he]
    exact hc

theorem streamPos_lt_renderLength (ctx : READER_CONTEXT) (snapB padB BL bo : Nat)
    (hMFO : ctx.ModifiedFooterOffset = 28 + snapB + padB)
    (hBL : BL = ctx.OriginalFooterOffset + 4)
    (hOrd : ctx.ModifiedFooterOffset ≤ ctx.OriginalFooterOffset)
    (hval : bo ≤ ctx.ModifiedFooterOffset ∨ ctx.OriginalFooterOffset ≤ bo)
    (hbo : bo < BL) :
    streamPos ctx bo < 28 + snapB + padB + 4 := by
  unfold streamPos
  split <;> omega

theorem copyFooterZone_spec (ctx : READER_CONTEXT) (data : List Nat)
    (snapB padB BL L : Nat) (c : CopyOut)
    (hMFO : ctx.ModifiedFooterOffset = 28 + snapB + padB)
    (hBL : BL = ctx.OriginalFooterOffset + 4)
    (hOrd : ctx.ModifiedFooterOffset ≤ ctx.OriginalFooterOffset)
    (hMF : ctx.ModifiedFooter = u32le (28 + snapB + padB + 4))
    (hBL32 : BL < 4294967296) (hL : L < 4294967296)
    (hro : c.readOffset ≤ L)
    (hbo : ctx.OriginalFooterOffset ≤ c.blockOffset) (hboBL : c.blockOffset < BL) :
    TrimCopySpec ctx BL L c.readOffset c.blockOffset c.out
      (renderTrim data snapB padB) (copyFooterZone ctx BL L c) := by
  have hRlen : (renderTrim data snapB padB).length = 28 + snapB + padB + 4 :=
    renderTrim_length data snapB padB
  have hpos : streamPos ctx c.blockOffset =
      c.blockOffset - ctx.OriginalFooterOffset + ctx.ModifiedFooterOffset := by
    unfold streamPos
    rw [if_neg (by omega)]
    omega
  by_cases hroL : c.readOffset < L
  · unfold copyFooterZone
    rw [if_pos ⟨hbo, hroL⟩]
    rw [usub_eq L c.readOffset (by omega) hL,
      usub_eq BL c.blockOffset (by omega) hBL32,
      usub_eq c.blockOffset ctx.OriginalFooterOffset hbo (by omega)]
    dsimp only
    rw [uadd_eq c.readOffset (min (L - c.readOffset) (BL - c.blockOffset)) (by omega),
      uadd_eq c.blockOffset (min (L - c.readOffset) (BL - c.blockOffset)) (by omega)]
    refine ⟨?_, ?_, ?_⟩
    · dsimp only
      rw [hpos, hRlen]
      omega
    · dsimp only
      congr 1
      rw [hMF]
      rw [renderTrim_drop]
      have hd1 : (writeU32 (writeU32 ((List.range 28).map (fun i => data.getD i 0)) 4
          (28 + snapB + padB + 4)) 20 snapB).drop (streamPos ctx c.blockOffset) = [] :=
        List.drop_of_length_le (by rw [length_hdrmap, hpos]; omega)
      have hd2 : ((List.range snapB).map (fun i => data.getD (28 + i) 0)).drop
          (streamPos ctx c.blockOffset - 28) = [] :=
        List.drop_of_length_le
          (by simp only [List.length_map, List.length_range]; rw [hpos]; omega)
      have hd3 : (List.replicate padB 0).drop
          (streamPos ctx c.blockOffset - 28 - snapB) = [] :=
        List.drop_of_length_le (by simp only [List.length_replicate]; rw [hpos]; omega)
      rw [hd1, hd2, hd3]
      simp only [List.nil_append]
      have e : streamPos ctx c.blockOffset - 28 - snapB - padB =
          c.blockOffset - ctx.OriginalFooterOffset := by
        rw [hpos]
        omega
      rw [e]
      rw [take_congr_drop (u32le (28 + snapB + padB + 4))
        (c.blockOffset - ctx.OriginalFooterOffset) (L - c.readOffset)
        (min (L - c.readOffset) (BL - c.blockOffset)) (by rw [length_u32le]; omega)]
      rw [drop_take_eq_range_map _ _ _ (by rw [length_u32le]; omega)]
    · by_cases hrel : BL - c.blockOffset ≤ L - c.readOffset
      · left
        refine ⟨by rw [hpos, hRlen]; omega, by dsimp only; omega⟩
      · right
        refine ⟨by rw [hpos, hRlen]; omega, by dsimp only; omega,
          Or.inr (by dsimp only; omega), ?_⟩
        dsimp only
        rw [hpos, hRlen]
        unfold streamPos
        rw [if_neg (by omega)]
        omega
  · unfold copyFooterZone
    rw [if_neg (by omega)]
    have hlt := streamPos_lt_renderLength ctx snapB padB BL c.blockOffset hMFO hBL hOrd
      (Or.inr hbo) hboBL
    exact TrimCopySpec_id ctx BL L _ c (by omega) (Or.inr hbo) hboBL (by rw [hRlen]; exact hlt)

theorem padZone_content (ctx : READER_CONTEXT) (data : List Nat) (snapB padB bo n : Nat)
    (hDE : ctx.DataEndOffset = 28 + snapB)
    (hMFO : ctx.ModifiedFooterOffset = 28 + snapB + padB)
    (hbo1 : ctx.DataEndOffset ≤ bo) (hbo2 : bo ≤ ctx.ModifiedFooterOffset)
    (hn : n ≤ ctx.ModifiedFooterOffset - bo) :
    ((renderTrim data snapB padB).drop bo).take n = List.replicate n 0 := by
  rw [renderTrim_drop]
  have hd1 : (writeU32 (writeU32 ((List.range 28).map (fun i => data.getD i 0)) 4
      (28 + snapB + padB + 4)) 20 snapB).drop bo = [] :=
    List.drop_of_length_le (by rw [length_hdrmap]; omega)
  have hd2 : ((List.range snapB).map (fun i => data.getD (28 + i) 0)).drop (bo - 28) = [] :=
    List.drop_of_length_le (by simp only [List.length_map, List.length_range]; omega)
  rw [hd1, hd2]
  simp only [List.nil_append]
  rw [List.drop_replicate]
  rw [List.take_append_eq_append_take]
  have ht2 : ((u32le (28 + snapB + padB + 4)).drop (bo - 28 - snapB - padB)).take
      (n - (List.replicate (padB - (bo - 28 - snapB)) (0 : Nat)).length) = [] := by
    rw [List.length_replicate]
    have : n - (padB - (bo - 28 - snapB)) = 0 := by omega
    rw [this, List.take_zero]
  rw [ht2, List.append_nil]
  rw [List.take_replicate]
  congr 1
  omega

theorem copyPadFooterZone_spec (ctx : READER_CONTEXT) (data : List Nat)
    (snapB padB BL L : Nat) (c : CopyOut)
    (hDE : ctx.DataEndOffset = 28 + snapB)
    (hMFO : ctx.ModifiedFooterOffset = 28 + snapB + padB)
    (hBL : BL = ctx.OriginalFooterOffset + 4)
    (hOrd : ctx.ModifiedFooterOffset ≤ ctx.OriginalFooterOffset)
    (hMF : ctx.ModifiedFooter = u32le (28 + snapB + padB + 4))
    (hBL32 : BL < 4294967296) (hL : L < 4294967296)
    (hro : c.readOffset ≤ L)
    (hbo1 : ctx.DataEndOffset ≤ c.blockOffset)
    (hbo2 : c.blockOffset ≤ ctx.ModifiedFooterOffset) :
    TrimCopySpec ctx BL L c.readOffset c.blockOffset c.out
      (renderTrim data snapB padB)
      (copyFooterZone ctx BL L (copyPadZone ctx L c)) := by
  have hRlen := renderTrim_length data snapB padB
  by_cases hOFOc : c.blockOffset < ctx.OriginalFooterOffset
  case neg =>
    have heq : copyPadZone ctx L c = c := by
      unfold copyPadZone
      rw [if_neg (by omega)]
    rw [heq]
    exact copyFooterZone_spec ctx data snapB padB BL L c hMFO hBL hOrd hMF hBL32 hL hro
      (by omega) (by omega)
  case pos =>
    have hposc : streamPos ctx c.blockOffset = c.blockOffset := by
      unfold streamPos
      rw [if_pos hOFOc]
    by_cases hroL : c.readOffset < L
    case neg =>
      have heq : copyPadZone ctx L c = c := by
        unfold copyPadZone
        rw [if_neg (by omega)]
      rw [heq]
      unfold copyFooterZone
      rw [if_neg (by omega)]
      exact TrimCopySpec_id ctx BL L _ c (by omega) (Or.inl hbo2) (by omega)
        (by rw [hRlen, hposc]; omega)
    case pos =>
      unfold copyPadZone
      rw [if_pos ⟨hbo1, hOFOc, hroL⟩]
      rw [usub_eq L c.readOffset (by omega) hL,
        usub_eq ctx.ModifiedFooterOffset c.blockOffset hbo2 (by omega)]
      dsimp only
      rw [uadd_eq c.readOffset
          (min (L - c.readOffset) (ctx.ModifiedFooterOffset - c.blockOffset)) (by omega),
        uadd_eq c.blockOffset
          (min (L - c.readOffset) (ctx.ModifiedFooterOffset - c.blockOffset)) (by omega)]
      set n3 := min (L - c.readOffset) (ctx.ModifiedFooterOffset - c.blockOffset) with hn3
      by_cases hjump : ctx.ModifiedFooterOffset ≤ c.blockOffset + n3
      case pos =>
        rw [if_pos hjump]
        have hcontent : List.replicate n3 (0 : Nat) =
            ((renderTrim data snapB padB).drop (streamPos ctx c.blockOffset)).take n3 := by
          rw [hposc]
          exact (padZone_content ctx data snapB padB c.blockOffset n3 hDE hMFO hbo1 hbo2
            (by omega)).symm
        rw [hcontent]
        apply TrimCopySpec_comp ctx BL L c.readOffset c.blockOffset c.out _ n3
          ctx.OriginalFooterOffset
        · omega
        · rw [hRlen, hposc]; omega
        · rw [hposc]
          unfold streamPos
          rw [if_neg (by omega)]
          omega
        · exact copyFooterZone_spec ctx data snapB padB BL L
            ⟨c.readOffset + n3, ctx.OriginalFooterOffset,
              c.out ++ ((renderTrim data snapB padB).drop (streamPos ctx c.blockOffset)).take n3⟩
            hMFO hBL hOrd hMF hBL32 hL (by dsimp only; omega) (by dsimp only; omega)
            (by dsimp only; omega)
      case neg =>
        rw [if_neg hjump]
        have hn3L : n3 = L - c.readOffset := by omega
        have heq : copyFooterZone ctx BL L
            ⟨c.readOffset + n3, c.blockOffset + n3, c.out ++ List.replicate n3 0⟩ =
            ⟨c.readOffset + n3, c.blockOffset + n3, c.out ++ List.replicate n3 0⟩ := by
          unfold copyFooterZone
          rw [if_neg (by dsimp only; omega)]
        rw [heq]
        refine ⟨?_, ?_, Or.inr ⟨?_, ?_, ?_, ?_⟩⟩
        · dsimp only
          rw [hposc, hRlen]
          omega
        · dsimp only
          congr 1
          rw [hposc, hn3L]
          exact (padZone_content ctx data snapB padB c.blockOffset (L - c.readOffset) hDE hMFO
            hbo1 hbo2 (by omega)).symm
        · rw [hposc, hRlen]; omega
        · dsimp only; omega
        · dsimp only
          left
          omega
        · dsimp only
          rw [hposc, hRlen]
          unfold streamPos
          rw [if_pos (by omega)]
          omega

theorem streamPos_le_MFO (ctx : READER_CONTEXT) (x : Nat)
    (hOrd : ctx.ModifiedFooterOffset ≤ ctx.OriginalFooterOffset)
    (hx : x ≤ ctx.ModifiedFooterOffset) : streamPos ctx x = x := by
  unfold streamPos
  split <;> omega

theorem dataZone_content (data : List Nat) (snapB padB bo n : Nat)
    (hbo1 : 28 ≤ bo) (hn : bo + n ≤ 28 + snapB) :
    ((renderTrim data snapB padB).drop bo).take n =
      (List.range n).map (fun i => data.getD (bo + i) 0) := by
  rw [renderTrim_drop]
  have hd1 : (writeU32 (writeU32 ((List.range 28).map (fun i => data.getD i 0)) 4
      (28 + snapB + padB + 4)) 20 snapB).drop bo = [] :=
    List.drop_of_length_le (by rw [length_hdrmap]; omega)
  rw [hd1]
  simp only [List.nil_append]
  rw [List.take_append_eq_append_take, List.take_append_eq_append_take]
  have hlen1 : (((List.range snapB).map (fun i => data.getD (28 + i) 0)).drop
      (bo - 28)).length = snapB - (bo - 28) := by
    simp only [List.length_drop, List.length_map, List.length_range]
  have hz : ((List.replicate padB (0 : Nat)).drop (bo - 28 - snapB)).take
      (n - (((List.range snapB).map (fun i => data.getD (28 + i) 0)).drop
        (bo - 28)).length) = [] := by
    rw [hlen1]
    have : n - (snapB - (bo - 28)) = 0 := by omega
    rw [this, List.take_zero]
  have hf : ((u32le (28 + snapB + padB + 4)).drop (bo - 28 - snapB - padB)).take
      (n - (((List.range snapB).map (fun i => data.getD (28 + i) 0)).drop (bo - 28) ++
        ((List.replicate padB 0).drop (bo - 28 - snapB))).length) = [] := by
    simp only [List.length_append, List.length_drop, List.length_map, List.length_range,
      List.length_replicate]
    have : n - (snapB - (bo - 28) + (padB - (bo - 28 - snapB))) = 0 := by omega
    rw [this, List.take_zero]
  rw [hz, hf, List.append_nil, List.append_nil]
  rw [range_map_drop_take (fun i => data.getD (28 + i) 0) snapB (bo - 28) n (by omega)]
  have hidx : ∀ i : Nat, 28 + (bo - 28 + i) = bo + i := fun i => by omega
  simp only [hidx]

theorem copyDataPadFooterZone_spec (ctx : READER_CONTEXT) (data : List Nat)
    (snapB padB BL L : Nat) (c : CopyOut)
    (hDE : ctx.DataEndOffset = 28 + snapB)
    (hMFO : ctx.ModifiedFooterOffset = 28 + snapB + padB)
    (hBL : BL = ctx.OriginalFooterOffset + 4)
    (hOrd : ctx.ModifiedFooterOffset ≤ ctx.OriginalFooterOffset)
    (hMF : ctx.ModifiedFooter = u32le (28 + snapB + padB + 4))
    (hBL32 : BL < 4294967296) (hL : L < 4294967296)
    (hro : c.readOffset ≤ L)
    (hbo1 : 28 ≤ c.blockOffset)
    (hbo2 : c.blockOffset ≤ ctx.DataEndOffset) :
    TrimCopySpec ctx BL L c.readOffset c.blockOffset c.out
      (renderTrim data snapB padB)
      (copyFooterZone ctx BL L (copyPadZone ctx L (copyDataZone ctx data L c))) := by
  have hRlen := renderTrim_length data snapB padB
  by_cases hDEc : c.blockOffset < ctx.DataEndOffset
  case neg =>
    have heq : copyDataZone ctx data L c = c := by
      unfold copyDataZone
      rw [if_neg (by omega)]
    rw [heq]
    exact copyPadFooterZone_spec ctx data snapB padB BL L c hDE hMFO hBL hOrd hMF hBL32 hL
      hro (by omega) (by omega)
  case pos =>
    have hposc : streamPos ctx c.blockOffset = c.blockOffset :=
      streamPos_le_MFO ctx c.blockOffset hOrd (by omega)
    by_cases hroL : c.readOffset < L
    case neg =>
      have h1 : copyDataZone ctx data L c = c := by
        unfold copyDataZone
        rw [if_neg (by omega)]
      have h2 : copyPadZone ctx L c = c := by
        unfold copyPadZone
        rw [if_neg (by omega)]
      rw [h1, h2]
      unfold copyFooterZone
      rw [if_neg (by omega)]
      exact TrimCopySpec_id ctx BL L _ c (by omega) (Or.inl (by omega)) (by omega)
        (by rw [hRlen, hposc]; omega)
    case pos =>
      unfold copyDataZone
      rw [if_pos ⟨hbo1, hDEc, hroL⟩]
      rw [usub_eq L c.readOffset (by omega) hL,
        usub_eq ctx.DataEndOffset c.blockOffset (by omega) (by omega)]
      dsimp only
      rw [uadd_eq c.readOffset
          (min (L - c.readOffset) (ctx.DataEndOffset - c.blockOffset)) (by omega),
        uadd_eq c.blockOffset
          (min (L - c.readOffset) (ctx.DataEndOffset - c.blockOffset)) (by omega)]
      set n2 := min (L - c.readOffset) (ctx.DataEndOffset - c.blockOffset) with hn2
      have hcontent : (List.range n2).map (fun i => data.getD (c.blockOffset + i) 0) =
          ((renderTrim data snapB padB).drop (streamPos ctx c.blockOffset)).take n2 := by
        rw [hposc]
        exact (dataZone_content data snapB padB c.blockOffset n2 hbo1 (by omega)).symm
      rw [hcontent]
      by_cases hjump : ctx.DataEndOffset ≤ c.blockOffset + n2
      case pos =>
        apply TrimCopySpec_comp ctx BL L c.readOffset c.blockOffset c.out _ n2
          (c.blockOffset + n2)
        · omega
        · rw [hRlen, hposc]; omega
        · rw [hposc, streamPos_le_MFO ctx (c.blockOffset + n2) hOrd (by omega)]
        · exact copyPadFooterZone_spec ctx data snapB padB BL L
            ⟨c.readOffset + n2, c.blockOffset + n2,
              c.out ++ ((renderTrim data snapB padB).drop
                (streamPos ctx c.blockOffset)).take n2⟩
            hDE hMFO hBL hOrd hMF hBL32 hL (by dsimp only; omega) (by dsimp only; omega)
            (by dsimp only; omega)
      case neg =>
        have hn2L : n2 = L - c.readOffset := by omega
        have h2 : copyPadZone ctx L
            ⟨c.readOffset + n2, c.blockOffset + n2,
              c.out ++ ((renderTrim data snapB padB).drop
                (streamPos ctx c.blockOffset)).take n2⟩ =
            ⟨c.readOffset + n2, c.blockOffset + n2,
              c.out ++ ((renderTrim data snapB padB).drop
                (streamPos ctx c.blockOffset)).take n2⟩ := by
          unfold copyPadZone
          rw [if_neg (by dsimp only; omega)]
        rw [h2]
        have h3 : copyFooterZone ctx BL L
            ⟨c.readOffset + n2, c.blockOffset + n2,
              c.out ++ ((renderTrim data snapB padB).drop
                (streamPos ctx c.blockOffset)).take n2⟩ =
            ⟨c.readOffset + n2, c.blockOffset + n2,
              c.out ++ ((renderTrim data snapB padB).drop
                (streamPos ctx c.blockOffset)).take n2⟩ := by
          unfold copyFooterZone
          rw [if_neg (by dsimp only; omega)]
        rw [h3]
        refine ⟨?_, ?_, Or.inr ⟨?_, ?_, ?_, ?_⟩⟩
        · dsimp only
          rw [hposc, hRlen]
          omega
        · dsimp only
          congr 1
          rw [hn2L]
        · rw [hposc, hRlen]; omega
        · dsimp only; omega
        · dsimp only
          left
          omega
        · dsimp only
          rw [hposc, hRlen, streamPos_le_MFO ctx (c.blockOffset + n2) hOrd (by omega)]
          omega

theorem headerZone_content (data : List Nat) (snapB padB bo n : Nat)
    (hn : bo + n ≤ 28) :
    ((renderTrim data snapB padB).drop bo).take n =
      (List.range n).map (fun i =>
        (writeU32 (writeU32 ((List.range 28).map (fun j => data.getD j 0)) 4
          (28 + snapB + padB + 4)) 20 snapB).getD (bo + i) 0) := by
  unfold renderTrim
  rw [List.append_assoc, List.append_assoc]
  rw [List.drop_append_eq_append_drop]
  rw [List.take_append_of_le_length (by rw [List.length_drop, length_hdrmap]; omega)]
  exact drop_take_eq_range_map _ bo n (by rw [length_hdrmap]; omega)

theorem copyBlock_trim (ctx : READER_CONTEXT) (b : BLOCK_NODE)
    (snapB padB L ro bo : Nat) (out : List Nat)
    (hMH : ctx.ModifiedHeader = writeU32 (writeU32 ((List.range 28).map
      (fun i => b.data.getD i 0)) 4 (28 + snapB + padB + 4)) 20 snapB)
    (hMF : ctx.ModifiedFooter = u32le (28 + snapB + padB + 4))
    (hDE : ctx.DataEndOffset = 28 + snapB)
    (hMFO : ctx.ModifiedFooterOffset = 28 + snapB + padB)
    (hBL : b.BlockLength = ctx.OriginalFooterOffset + 4)
    (hOrd : ctx.ModifiedFooterOffset ≤ ctx.OriginalFooterOffset)
    (hflag : readU32 ctx.ModifiedHeader 0 ≠ 0)
    (hBL32 : b.BlockLength < 4294967296) (hL : L < 4294967296)
    (hro : ro ≤ L)
    (hval : bo ≤ ctx.ModifiedFooterOffset ∨ ctx.OriginalFooterOffset ≤ bo)
    (hbo : bo < b.BlockLength) :
    TrimCopySpec ctx b.BlockLength L ro bo out (renderTrim b.data snapB padB)
      (copyBlock ctx b L ro bo out) := by
  have hRlen := renderTrim_length b.data snapB padB
  unfold copyBlock
  rw [if_pos hflag]
  by_cases hhdr : bo < 28
  case neg =>
    have h1 : copyHeaderZone ctx L ⟨ro, bo, out⟩ = ⟨ro, bo, out⟩ := by
      unfold copyHeaderZone
      rw [if_neg (by dsimp only; omega)]
    rw [h1]
    by_cases hde : bo ≤ ctx.DataEndOffset
    case pos =>
      exact copyDataPadFooterZone_spec ctx b.data snapB padB b.BlockLength L ⟨ro, bo, out⟩
        hDE hMFO hBL hOrd hMF hBL32 hL hro (by dsimp only; omega) hde
    case neg =>
      have h2 : copyDataZone ctx b.data L ⟨ro, bo, out⟩ = ⟨ro, bo, out⟩ := by
        unfold copyDataZone
        rw [if_neg (by dsimp only; omega)]
      rw [h2]
      by_cases hmfo : bo ≤ ctx.ModifiedFooterOffset
      case pos =>
        exact copyPadFooterZone_spec ctx b.data snapB padB b.BlockLength L ⟨ro, bo, out⟩
          hDE hMFO hBL hOrd hMF hBL32 hL hro (by dsimp only; omega) hmfo
      case neg =>
        have hofo : ctx.OriginalFooterOffset ≤ bo := by omega
        have h3 : copyPadZone ctx L ⟨ro, bo, out⟩ = ⟨ro, bo, out⟩ := by
          unfold copyPadZone
          rw [if_neg (by dsimp only; omega)]
        rw [h3]
        exact copyFooterZone_spec ctx b.data snapB padB b.BlockLength L ⟨ro, bo, out⟩
          hMFO hBL hOrd hMF hBL32 hL hro hofo hbo
  case pos =>
    have hposc : streamPos ctx bo = bo :=
      streamPos_le_MFO ctx bo hOrd (by omega)
    unfold copyHeaderZone
    rw [if_pos (by dsimp only; omega)]
    dsimp only
    rw [usub_eq L ro hro hL, usub_eq 28 bo (by omega) (by omega)]
    rw [uadd_eq ro (min (L - ro) (28 - bo)) (by omega),
      uadd_eq bo (min (L - ro) (28 - bo)) (by omega)]
    set n1 := min (L - ro) (28 - bo) with hn1
    have hcontent : (List.range n1).map (fun i => ctx.ModifiedHeader.getD (bo + i) 0) =
        ((renderTrim b.data snapB padB).drop (streamPos ctx bo)).take n1 := by
      rw [hposc, hMH]
      exact (headerZone_content b.data snapB padB bo n1 (by omega)).symm
    rw [hcontent]
    by_cases hjump : 28 ≤ bo + n1
    case pos =>
      apply TrimCopySpec_comp ctx b.BlockLength L ro bo out _ n1 (bo + n1)
      · omega
      · rw [hRlen, hposc]; omega
      · rw [hposc, streamPos_le_MFO ctx (bo + n1) hOrd (by omega)]
      · exact copyDataPadFooterZone_spec ctx b.data snapB padB b.BlockLength L
          ⟨ro + n1, bo + n1,
            out ++ ((renderTrim b.data snapB padB).drop (streamPos ctx bo)).take n1⟩
          hDE hMFO hBL hOrd hMF hBL32 hL (by dsimp only; omega) (by dsimp only; omega)
          (by dsimp only; omega)
    case neg =>
      have hn1L : n1 = L - ro := by omega
      have h2 : copyDataZone ctx b.data L
          ⟨ro + n1, bo + n1,
            out ++ ((renderTrim b.data snapB padB).drop (streamPos ctx bo)).take n1⟩ =
          ⟨ro + n1, bo + n1,
            out ++ ((renderTrim b.data snapB padB).drop (streamPos ctx bo)).take n1⟩ := by
        unfold copyDataZone
        rw [if_neg (by dsimp only; omega)]
      rw [h2]
      have h3 : copyPadZone ctx L
          ⟨ro + n1, bo + n1,
            out ++ ((renderTrim b.data snapB padB).drop (streamPos ctx bo)).take n1⟩ =
          ⟨ro + n1, bo + n1,
            out ++ ((renderTrim b.data snapB padB).drop (streamPos ctx bo)).take n1⟩ := by
        unfold copyPadZone
        rw [if_neg (by dsimp only; omega)]
      rw [h3]
      have h4 : copyFooterZone ctx b.BlockLength L
          ⟨ro + n1, bo + n1,
            out ++ ((renderTrim b.data snapB padB).drop (streamPos ctx bo)).take n1⟩ =
          ⟨ro + n1, bo + n1,
            out ++ ((renderTrim b.data snapB padB).drop (streamPos ctx bo)).take n1⟩ := by
        unfold copyFooterZone
        rw [if_neg (by dsimp only; omega)]
      rw [h4]
      refine ⟨?_, ?_, Or.inr ⟨?_, ?_, ?_, ?_⟩⟩
      · dsimp only
        rw [hposc, hRlen]
        omega
      · dsimp only
        congr 1
        rw [hn1L]
      · rw [hposc, hRlen]; omega
      · dsimp only; omega
      · dsimp only
        left
        omega
      · dsimp only
        rw [hposc, hRlen, streamPos_le_MFO ctx (bo + n1) hOrd (by omega)]
        omega

/-! ### Support for the loop invariant -/

/-- The logical stream as seen from the loop locals: the remainder of the
held block (the locals are authoritative while the loop runs) followed by
the renderings of the queued blocks. -/
def loopStream (ctx : READER_CONTEXT) (blockNode : Option BLOCK_NODE) (bo : Nat)
    (queue : List BLOCK_NODE) : List Nat :=
  (match blockNode with
   | none => []
   | some b => remainingOfBlock ctx b bo) ++ (queue.map (renderBlock ctx)).flatten

theorem logicalStream_eq_loopStream (ctx : READER_CONTEXT) (queue : List BLOCK_NODE) :
    logicalStream ctx queue = loopStream ctx ctx.CurrentBlock ctx.CurrentBlockOffset queue :=
  rfl

theorem renderBlock_congr (ctx1 ctx2 : READER_CONTEXT) (b : BLOCK_NODE)
    (h1 : ctx1.SnapLength = ctx2.SnapLength)
    (h2 : ctx1.SnapLengthPad = ctx2.SnapLengthPad)
    (h3 : ctx1.FilteredProcessIds = ctx2.FilteredProcessIds)
    (h4 : ctx1.FilteredConnectionIds = ctx2.FilteredConnectionIds) :
    renderBlock ctx1 b = renderBlock ctx2 b := by
  unfold renderBlock suppressedBlock filterMatch
  rw [h1, h2, h3, h4]

theorem queueStream_congr (ctx1 ctx2 : READER_CONTEXT) (queue : List BLOCK_NODE)
    (h1 : ctx1.SnapLength = ctx2.SnapLength)
    (h2 : ctx1.SnapLengthPad = ctx2.SnapLengthPad)
    (h3 : ctx1.FilteredProcessIds = ctx2.FilteredProcessIds)
    (h4 : ctx1.FilteredConnectionIds = ctx2.FilteredConnectionIds) :
    (queue.map (renderBlock ctx1)).flatten = (queue.map (renderBlock ctx2)).flatten := by
  congr 1
  exact List.map_congr_left (fun b _ => renderBlock_congr ctx1 ctx2 b h1 h2 h3 h4)

theorem suppressedBlock_packet (ctx : READER_CONTEXT) (b : BLOCK_NODE)
    (hbt : b.BlockType = BLOCK_TYPE.PacketBlock) :
    suppressedBlock ctx b = filterMatch ctx b := by
  unfold suppressedBlock
  rw [hbt]

theorem renderBlock_packet (ctx : READER_CONTEXT) (b : BLOCK_NODE)
    (hbt : b.BlockType = BLOCK_TYPE.PacketBlock) :
    renderBlock ctx b =
      if suppressedBlock ctx b then []
      else if ctx.SnapLength ≠ 0 ∧ ctx.SnapLength < readU32 b.data 20 then
        renderTrim b.data ctx.SnapLength ctx.SnapLengthPad
      else b.data := by
  unfold renderBlock
  rw [hbt]

theorem renderBlock_other (ctx : READER_CONTEXT) (b : BLOCK_NODE)
    (hbt : b.BlockType = BLOCK_TYPE.OtherBlock) :
    renderBlock ctx b = b.data := by
  unfold renderBlock
  rw [hbt]

theorem writeU32_len4 (l : List Nat) (v : Nat) (h : l.length = 4) :
    writeU32 l 0 v = u32le v := by
  unfold writeU32
  rw [List.take_zero, List.drop_of_length_le (by omega), List.nil_append, List.append_nil]

theorem stitch_take (T S2 : List Nat) (L ro k : Nat) (hro : ro ≤ L)
    (hk : k = min (L - ro) T.length) :
    T.take (L - ro) ++ (T.drop k ++ S2).take (L - (ro + k)) = (T ++ S2).take (L - ro) := by
  by_cases hcase : T.length ≤ L - ro
  · have hk2 : k = T.length := by omega
    rw [hk2, List.drop_length, List.nil_append, List.take_of_length_le hcase]
    rw [List.take_append_eq_append_take, List.take_of_length_le hcase]
    congr 2
    omega
  · have hk2 : k = L - ro := by omega
    have h0 : L - (ro + k) = 0 := by omega
    rw [h0, List.take_zero, List.append_nil]
    rw [List.take_append_of_le_length (by omega)]

theorem stitch_min (T S2 : List Nat) (L ro k : Nat) (hro : ro ≤ L)
    (hk : k = min (L - ro) T.length) :
    ro + k + min (L - (ro + k)) ((T.drop k ++ S2).length) =
      ro + min (L - ro) ((T ++ S2).length) := by
  simp only [List.length_append, List.length_drop]
  omega

theorem stitch_drop (T S2 : List Nat) (L ro k : Nat) (hro : ro ≤ L)
    (hk : k = min (L - ro) T.length) :
    (T.drop k ++ S2).drop (L - (ro + k)) = (T ++ S2).drop (L - ro) := by
  rw [List.drop_append_eq_append_drop, List.drop_append_eq_append_drop, List.drop_drop]
  congr 1
  · congr 1
    omega
  · congr 1
    rw [List.length_drop]
    omega

theorem trimOverlay_spec (ctx : READER_CONTEXT) (b : BLOCK_NODE)
    (hbase : WFctxBase ctx) (hwb : WFblock b)
    (hbt : b.BlockType = BLOCK_TYPE.PacketBlock)
    (htrim : ctx.SnapLength ≠ 0 ∧ ctx.SnapLength < readU32 b.data 20) :
    (trimOverlay ctx b).DataEndOffset = 28 + ctx.SnapLength ∧
    (trimOverlay ctx b).ModifiedFooterOffset = 28 + ctx.SnapLength + ctx.SnapLengthPad ∧
    (trimOverlay ctx b).OriginalFooterOffset = b.BlockLength - 4 ∧
    (trimOverlay ctx b).ModifiedHeader =
      writeU32 (writeU32 ((List.range 28).map (fun i => b.data.getD i 0)) 4
        (28 + ctx.SnapLength + ctx.SnapLengthPad + 4)) 20 ctx.SnapLength ∧
    (trimOverlay ctx b).ModifiedFooter =
      u32le (28 + ctx.SnapLength + ctx.SnapLengthPad + 4) ∧
    28 + ctx.SnapLength + ctx.SnapLengthPad + 4 ≤ b.BlockLength ∧
    readU32 (trimOverlay ctx b).ModifiedHeader 0 ≠ 0 := by
  obtain ⟨hlen, hsize, hbytes, hpkt⟩ := hwb
  obtain ⟨h0, h4, hcap⟩ := hpkt hbt
  have hCpad : readU32 b.data 20 ≤ PCAP_NG_PADDING (readU32 b.data 20) := pad_ge _
  have hpm : PCAP_NG_PADDING ctx.SnapLength ≤ PCAP_NG_PADDING (readU32 b.data 20) :=
    pad_mono (Nat.le_of_lt htrim.2)
  have hsg : ctx.SnapLength ≤ PCAP_NG_PADDING ctx.SnapLength := pad_ge _
  have hBL32 : b.BlockLength < 4294967296 := by omega
  have hpads : PCAP_NG_PADDING ctx.SnapLength < 4294967296 := by omega
  have hP : ctx.SnapLengthPad = PCAP_NG_PADDING ctx.SnapLength - ctx.SnapLength := by
    have hp2 := hbase.2.1
    rw [Nat.mod_eq_of_lt hpads] at hp2
    rw [hp2, usub_eq _ _ hsg hpads]
  have hkey : 28 + ctx.SnapLength + ctx.SnapLengthPad + 4 ≤ b.BlockLength := by omega
  unfold trimOverlay
  dsimp only
  rw [h4]
  rw [uadd_eq 28 ctx.SnapLength (by omega)]
  rw [uadd_eq (28 + ctx.SnapLength) ctx.SnapLengthPad (by omega)]
  rw [uadd_eq (28 + ctx.SnapLength + ctx.SnapLengthPad) 4 (by omega)]
  rw [usub_eq b.BlockLength 4 (by omega) hBL32]
  refine ⟨rfl, rfl, rfl, rfl, ?_, hkey, ?_⟩
  · exact writeU32_len4 _ _ (by simp)
  · rw [readU32_hdrmap_zero]
    exact h0

/-- What one successful pass of the DispatchRead while loop guarantees,
relative to the logical stream of the entry state: the written bytes are
the next L - ro stream bytes, the read offset advances by the number of
bytes actually available, the remaining stream is the rest, the persisted
context is well formed, the constant-per-call fields are unchanged, the
restart trace is untouched, and the queue-manager events record exactly
the released blocks in dequeue order. -/
def LoopSpec (ctx : READER_CONTEXT) (queue : List BLOCK_NODE)
    (blockNode : Option BLOCK_NODE) (bo L ro : Nat) (out : List Nat)
    (events : List QmEvent) (trace : List RESTART_STATE) (r : LoopOut) : Prop :=
  r.out = out ++ (loopStream ctx blockNode bo queue).take (L - ro) ∧
  r.readOffset = ro + min (L - ro) (loopStream ctx blockNode bo queue).length ∧
  logicalStream r.ctx r.queue = (loopStream ctx blockNode bo queue).drop (L - ro) ∧
  WFreader r.ctx ∧
  (∀ b ∈ r.queue, WFblock b) ∧
  r.ctx.SnapLength = ctx.SnapLength ∧
  r.ctx.SnapLengthPad = ctx.SnapLengthPad ∧
  r.ctx.FilteredProcessIds = ctx.FilteredProcessIds ∧
  r.ctx.FilteredConnectionIds = ctx.FilteredConnectionIds ∧
  r.ctx.RestartState = ctx.RestartState ∧
  r.ctx.RestartRequested = false ∧
  r.trace = trace ∧
  ∃ consumed, blockNode.toList ++ queue =
      consumed ++ r.ctx.CurrentBlock.toList ++ r.queue ∧
    r.events = events ++ consumed.map QmEvent.cleanupBlock

theorem LoopSpec_step (ctx ctx2 : READER_CONTEXT) (queue queue2 : List BLOCK_NODE)
    (bn bn2 : Option BLOCK_NODE) (bo bo2 L ro k ro2 : Nat) (out out2 : List Nat)
    (events events2 : List QmEvent) (trace : List RESTART_STATE)
    (cs : List BLOCK_NODE) (T Q : List Nat) (r : LoopOut)
    (hro : ro ≤ L)
    (hk : k = min (L - ro) T.length)
    (hS1 : loopStream ctx bn bo queue = T ++ Q)
    (hS2 : loopStream ctx2 bn2 bo2 queue2 = T.drop k ++ Q)
    (hcons : bn.toList ++ queue = cs ++ bn2.toList ++ queue2)
    (h6 : ctx2.SnapLength = ctx.SnapLength)
    (h7 : ctx2.SnapLengthPad = ctx.SnapLengthPad)
    (h8 : ctx2.FilteredProcessIds = ctx.FilteredProcessIds)
    (h9 : ctx2.FilteredConnectionIds = ctx.FilteredConnectionIds)
    (h10 : ctx2.RestartState = ctx.RestartState)
    (hro2 : ro2 = ro + k)
    (hout : out2 = out ++ T.take (L - ro))
    (hev : events2 = events ++ cs.map QmEvent.cleanupBlock)
    (hspec : LoopSpec ctx2 queue2 bn2 bo2 L ro2 out2 events2 trace r) :
    LoopSpec ctx queue bn bo L ro out events trace r := by
  subst hro2
  subst hout
  subst hev
  obtain ⟨c1, c2, c3, c4, c5, c6, c7, c8, c9, c10, c11, c12, c13⟩ := hspec
  rw [hS2] at c1 c2 c3
  refine ⟨?_, ?_, ?_, c4, c5, ?_, ?_, ?_, ?_, ?_, c11, c12, ?_⟩
  · rw [hS1, c1, List.append_assoc, stitch_take T Q L ro k hro hk]
  · rw [hS1, c2, stitch_min T Q L ro k hro hk]
  · rw [hS1, c3, stitch_drop T Q L ro k hro hk]
  · rw [c6, h6]
  · rw [c7, h7]
  · rw [c8, h8]
  · rw [c9, h9]
  · rw [c10, h10]
  · obtain ⟨consumed, hcc1, hcc2⟩ := c13
    refine ⟨cs ++ consumed, ?_, ?_⟩
    · rw [hcons, List.append_assoc cs, hcc1]
      simp only [List.append_assoc]
    · rw [hcc2, List.map_append]
      simp only [List.append_assoc]

theorem LoopSpec_convert (ctx1 ctx2 : READER_CONTEXT) (queue1 queue2 : List BLOCK_NODE)
    (bn1 bn2 : Option BLOCK_NODE) (bo1 bo2 L ro : Nat) (out : List Nat)
    (events : List QmEvent) (trace : List RESTART_STATE) (r : LoopOut)
    (hS : loopStream ctx2 bn2 bo2 queue2 = loopStream ctx1 bn1 bo1 queue1)
    (hC : bn2.toList ++ queue2 = bn1.toList ++ queue1)
    (h6 : ctx2.SnapLength = ctx1.SnapLength)
    (h7 : ctx2.SnapLengthPad = ctx1.SnapLengthPad)
    (h8 : ctx2.FilteredProcessIds = ctx1.FilteredProcessIds)
    (h9 : ctx2.FilteredConnectionIds = ctx1.FilteredConnectionIds)
    (h10 : ctx2.RestartState = ctx1.RestartState)
    (hspec : LoopSpec ctx2 queue2 bn2 bo2 L ro out events trace r) :
    LoopSpec ctx1 queue1 bn1 bo1 L ro out events trace r := by
  obtain ⟨c1, c2, c3, c4, c5, c6, c7, c8, c9, c10, c11, c12, c13⟩ := hspec
  rw [hS] at c1 c2 c3
  refine ⟨c1, c2, c3, c4, c5, by rw [c6, h6], by rw [c7, h7], by rw [c8, h8],
    by rw [c9, h9], by rw [c10, h10], c11, c12, ?_⟩
  obtain ⟨consumed, hcc1, hcc2⟩ := c13
  exact ⟨consumed, by rw [← hC, hcc1], hcc2⟩

theorem consumeStep (fuel L : Nat) (hL : L < 4294967296)
    (IH : ∀ (ctx : READER_CONTEXT) (queue : List BLOCK_NODE)
      (blockNode : Option BLOCK_NODE) (bo ro : Nat) (out : List Nat)
      (events : List QmEvent) (trace : List RESTART_STATE),
      queue.length + (L - ro) + 1 ≤ fuel → WFctxBase ctx →
      WFblockState ctx blockNode bo → (∀ x ∈ queue, WFblock x) → ro ≤ L →
      ctx.RestartRequested = false →
      ∃ r, readLoop fuel ctx queue blockNode bo L ro out events trace = some r ∧
        LoopSpec ctx queue blockNode bo L ro out events trace r)
    (ctxc : READER_CONTEXT) (queue2 : List BLOCK_NODE) (b : BLOCK_NODE)
    (bo ro : Nat) (out : List Nat) (events : List QmEvent)
    (trace : List RESTART_STATE)
    (hfuel : queue2.length + (L - ro) + 1 ≤ fuel + 1)
    (hbase : WFctxBase ctxc) (hq2 : ∀ x ∈ queue2, WFblock x) (hroL : ro < L)
    (hrr : ctxc.RestartRequested = false)
    (hwb : WFblock b)
    (hslack : bo < b.BlockLength ∨ queue2.length + (L - ro) + 2 ≤ fuel + 1)
    (hbs2 : if readU32 ctxc.ModifiedHeader 0 ≠ 0 then
        b.BlockType = BLOCK_TYPE.PacketBlock ∧
        28 ≤ ctxc.DataEndOffset ∧
        ctxc.DataEndOffset ≤ ctxc.ModifiedFooterOffset ∧
        ctxc.ModifiedFooterOffset ≤ ctxc.OriginalFooterOffset ∧
        ctxc.OriginalFooterOffset + 4 = b.BlockLength ∧
        ctxc.ModifiedHeader =
          writeU32 (writeU32 ((List.range 28).map (fun i => b.data.getD i 0)) 4
            (ctxc.ModifiedFooterOffset + 4)) 20 (ctxc.DataEndOffset - 28) ∧
        ctxc.ModifiedFooter = u32le (ctxc.ModifiedFooterOffset + 4) ∧
        (bo ≤ ctxc.ModifiedFooterOffset ∨ ctxc.OriginalFooterOffset ≤ bo) ∧
        bo < b.BlockLength
      else bo ≤ b.BlockLength) :
    ∃ r, (if b.BlockLength ≤ (copyBlock ctxc b L ro bo out).blockOffset then
          readLoop fuel ctxc queue2 none 0 L (copyBlock ctxc b L ro bo out).readOffset
            (copyBlock ctxc b L ro bo out).out (events ++ [QmEvent.cleanupBlock b]) trace
        else
          readLoop fuel ctxc queue2 (some b) (copyBlock ctxc b L ro bo out).blockOffset L
            (copyBlock ctxc b L ro bo out).readOffset (copyBlock ctxc b L ro bo out).out
            events trace) = some r ∧
      LoopSpec ctxc queue2 (some b) bo L ro out events trace r := by
  have hlen := hwb.1
  have hsize := hwb.2.1
  by_cases hflag : readU32 ctxc.ModifiedHeader 0 = 0
  case pos =>
    have hifneg : ¬(readU32 ctxc.ModifiedHeader 0 ≠ 0) := fun h => h hflag
    rw [if_neg hifneg] at hbs2
    have hfu1 : queue2.length +
        (L - (ro + min (L - ro) (b.BlockLength - bo))) + 1 ≤ fuel := by
      rcases hslack with h | h <;> omega
    have hc := copyBlock_plain ctxc b L ro bo out hflag hlen hsize hL hroL hbs2
    rw [hc]
    dsimp only
    have hT : remainingOfBlock ctxc b bo = b.data.drop bo := by
      unfold remainingOfBlock
      rw [if_neg hifneg]
    have hS1 : loopStream ctxc (some b) bo queue2 =
        b.data.drop bo ++ (queue2.map (renderBlock ctxc)).flatten := by
      unfold loopStream
      dsimp only
      rw [hT]
    have hklen : min (L - ro) (b.BlockLength - bo) =
        min (L - ro) (b.data.drop bo).length := by
      rw [List.length_drop]
      omega
    by_cases hrel : b.BlockLength ≤ bo + min (L - ro) (b.BlockLength - bo)
    · rw [if_pos hrel]
      obtain ⟨r, hrun, hspec⟩ := IH ctxc queue2 none 0
        (ro + min (L - ro) (b.BlockLength - bo)) (out ++ (b.data.drop bo).take (L - ro))
        (events ++ [QmEvent.cleanupBlock b]) trace hfu1 hbase trivial hq2
        (by omega) hrr
      refine ⟨r, hrun, ?_⟩
      refine LoopSpec_step ctxc ctxc queue2 queue2 (some b) none bo 0 L ro
        (min (L - ro) (b.BlockLength - bo)) _ out _ events _ trace [b]
        (b.data.drop bo) ((queue2.map (renderBlock ctxc)).flatten) r
        (Nat.le_of_lt hroL) hklen hS1 ?_ rfl rfl rfl rfl rfl rfl rfl rfl rfl hspec
      unfold loopStream
      dsimp only
      have hTk : (b.data.drop bo).drop (min (L - ro) (b.BlockLength - bo)) = [] :=
        List.drop_of_length_le (by rw [List.length_drop]; omega)
      rw [hTk]
    · rw [if_neg hrel]
      have hbo2 : bo + min (L - ro) (b.BlockLength - bo) < b.BlockLength := by omega
      obtain ⟨r, hrun, hspec⟩ := IH ctxc queue2 (some b)
        (bo + min (L - ro) (b.BlockLength - bo))
        (ro + min (L - ro) (b.BlockLength - bo)) (out ++ (b.data.drop bo).take (L - ro))
        events trace hfu1 hbase
        ⟨hwb, by rw [if_neg hifneg]; exact hbo2⟩ hq2 (by omega) hrr
      refine ⟨r, hrun, ?_⟩
      refine LoopSpec_step ctxc ctxc queue2 queue2 (some b) (some b) bo
        (bo + min (L - ro) (b.BlockLength - bo)) L ro
        (min (L - ro) (b.BlockLength - bo)) _ out _ events _ trace []
        (b.data.drop bo) ((queue2.map (renderBlock ctxc)).flatten) r
        (Nat.le_of_lt hroL) hklen hS1 ?_ rfl rfl rfl rfl rfl rfl rfl rfl
        (by simp) hspec
      unfold loopStream
      dsimp only
      have hT2 : remainingOfBlock ctxc b (bo + min (L - ro) (b.BlockLength - bo)) =
          b.data.drop (bo + min (L - ro) (b.BlockLength - bo)) := by
        unfold remainingOfBlock
        rw [if_neg hifneg]
      rw [hT2]
      congr 1
      rw [List.drop_drop]
  case neg =>
    rw [if_pos hflag] at hbs2
    obtain ⟨hbt, hDE28, hDEM, hOrd, hOFO4, hMH, hMF, hcval, hboBL⟩ := hbs2
    have he1 : 28 + (ctxc.DataEndOffset - 28) +
        (ctxc.ModifiedFooterOffset - ctxc.DataEndOffset) + 4 =
        ctxc.ModifiedFooterOffset + 4 := by omega
    have hBL32 : b.BlockLength < 4294967296 := by omega
    have hR := copyBlock_trim ctxc b (ctxc.DataEndOffset - 28)
      (ctxc.ModifiedFooterOffset - ctxc.DataEndOffset) L ro bo out
      (by rw [he1]; exact hMH) (by rw [he1]; exact hMF) (by omega) (by omega)
      (by omega) hOrd hflag hBL32 hL (Nat.le_of_lt hroL) hcval hboBL
    obtain ⟨hc1, hc2, hc3⟩ := hR
    have hT : remainingOfBlock ctxc b bo =
        (renderTrim b.data (ctxc.DataEndOffset - 28)
          (ctxc.ModifiedFooterOffset - ctxc.DataEndOffset)).drop (streamPos ctxc bo) := by
      unfold remainingOfBlock
      rw [if_pos hflag]
    have hS1 : loopStream ctxc (some b) bo queue2 =
        (renderTrim b.data (ctxc.DataEndOffset - 28)
          (ctxc.ModifiedFooterOffset - ctxc.DataEndOffset)).drop (streamPos ctxc bo) ++
        (queue2.map (renderBlock ctxc)).flatten := by
      unfold loopStream
      dsimp only
      rw [hT]
    have hposlt := streamPos_lt_renderLength ctxc (ctxc.DataEndOffset - 28)
      (ctxc.ModifiedFooterOffset - ctxc.DataEndOffset) b.BlockLength bo
      (by omega) (by omega) hOrd hcval hboBL
    have hRlen := renderTrim_length b.data (ctxc.DataEndOffset - 28)
      (ctxc.ModifiedFooterOffset - ctxc.DataEndOffset)
    have hklen : min (L - ro)
        ((renderTrim b.data (ctxc.DataEndOffset - 28)
          (ctxc.ModifiedFooterOffset - ctxc.DataEndOffset)).length - streamPos ctxc bo) =
        min (L - ro)
        ((renderTrim b.data (ctxc.DataEndOffset - 28)
          (ctxc.ModifiedFooterOffset - ctxc.DataEndOffset)).drop
            (streamPos ctxc bo)).length := by
      rw [List.length_drop]
    rcases hc3 with ⟨hfull, hcbo⟩ | ⟨hlt2, hcbo, hcval2, hcpos2⟩
    · rw [if_pos (Nat.le_of_eq hcbo.symm)]
      rw [hc1, hc2]
      obtain ⟨r, hrun, hspec⟩ := IH ctxc queue2 none 0
        (ro + min (L - ro)
          ((renderTrim b.data (ctxc.DataEndOffset - 28)
            (ctxc.ModifiedFooterOffset - ctxc.DataEndOffset)).length - streamPos ctxc bo))
        (out ++ ((renderTrim b.data (ctxc.DataEndOffset - 28)
          (ctxc.ModifiedFooterOffset - ctxc.DataEndOffset)).drop
            (streamPos ctxc bo)).take (L - ro))
        (events ++ [QmEvent.cleanupBlock b]) trace (by rw [hRlen] at *; omega) hbase
        trivial hq2 (by omega) hrr
      refine ⟨r, hrun, ?_⟩
      refine LoopSpec_step ctxc ctxc queue2 queue2 (some b) none bo 0 L ro
        _ _ out _ events _ trace [b] _ _ r (Nat.le_of_lt hroL) hklen hS1 ?_
        rfl rfl rfl rfl rfl rfl rfl rfl rfl hspec
      unfold loopStream
      dsimp only
      have hTk : ((renderTrim b.data (ctxc.DataEndOffset - 28)
          (ctxc.ModifiedFooterOffset - ctxc.DataEndOffset)).drop
            (streamPos ctxc bo)).drop
          (min (L - ro)
            ((renderTrim b.data (ctxc.DataEndOffset - 28)
              (ctxc.ModifiedFooterOffset - ctxc.DataEndOffset)).length -
              streamPos ctxc bo)) = [] :=
        List.drop_of_length_le (by rw [List.length_drop]; omega)
      rw [hTk]
    · rw [if_neg (by omega)]
      rw [hc1, hc2]
      obtain ⟨r, hrun, hspec⟩ := IH ctxc queue2 (some b)
        ((copyBlock ctxc b L ro bo out).blockOffset)
        (ro + min (L - ro)
          ((renderTrim b.data (ctxc.DataEndOffset - 28)
            (ctxc.ModifiedFooterOffset - ctxc.DataEndOffset)).length - streamPos ctxc bo))
        (out ++ ((renderTrim b.data (ctxc.DataEndOffset - 28)
          (ctxc.ModifiedFooterOffset - ctxc.DataEndOffset)).drop
            (streamPos ctxc bo)).take (L - ro))
        events trace (by rw [hRlen] at *; omega) hbase
        ⟨hwb, by
          rw [if_pos hflag]
          exact ⟨hbt, hDE28, hDEM, hOrd, hOFO4, hMH, hMF, hcval2, hcbo⟩⟩
        hq2 (by omega) hrr
      refine ⟨r, hrun, ?_⟩
      refine LoopSpec_step ctxc ctxc queue2 queue2 (some b) (some b) bo
        ((copyBlock ctxc b L ro bo out).blockOffset) L ro
        _ _ out _ events _ trace [] _ _ r (Nat.le_of_lt hroL) hklen hS1 ?_
        rfl rfl rfl rfl rfl rfl rfl rfl (by simp) hspec
      unfold loopStream
      dsimp only
      have hT2 : remainingOfBlock ctxc b ((copyBlock ctxc b L ro bo out).blockOffset) =
          (renderTrim b.data (ctxc.DataEndOffset - 28)
            (ctxc.ModifiedFooterOffset - ctxc.DataEndOffset)).drop
            (streamPos ctxc ((copyBlock ctxc b L ro bo out).blockOffset)) := by
        unfold remainingOfBlock
        rw [if_pos hflag]
      rw [hT2, hcpos2]
      congr 1
      rw [List.drop_drop]

theorem readLoop_spec (L : Nat) (hL : L < 4294967296) : ∀ (fuel : Nat)
    (ctx : READER_CONTEXT) (queue : List BLOCK_NODE)
    (blockNode : Option BLOCK_NODE) (bo ro : Nat) (out : List Nat)
    (events : List QmEvent) (trace : List RESTART_STATE),
    queue.length + (L - ro) + 1 ≤ fuel → WFctxBase ctx →
    WFblockState ctx blockNode bo → (∀ x ∈ queue, WFblock x) → ro ≤ L →
    ctx.RestartRequested = false →
    ∃ r, readLoop fuel ctx queue blockNode bo L ro out events trace = some r ∧
      LoopSpec ctx queue blockNode bo L ro out events trace r := by
  intro fuel
  induction fuel with
  | zero =>
    intro ctx queue blockNode bo ro out events trace hfuel hbase hbs hq hro hrr
    omega
  | succ fuel IH =>
    intro ctx queue blockNode bo ro out events trace hfuel hbase hbs hq hro hrr
    rw [readLoop.eq_def]
    dsimp only
    by_cases hroL : ro < L
    case neg =>
      rw [if_neg hroL]
      have h0 : L - ro = 0 := by omega
      refine ⟨_, rfl, ?_, ?_, ?_, ⟨hbase, hbs⟩, hq, rfl, rfl, rfl, rfl, rfl, hrr, rfl,
        [], rfl, by simp⟩
      · dsimp only
        rw [h0, List.take_zero, List.append_nil]
      · dsimp only
        rw [h0]
        omega
      · dsimp only
        rw [h0, List.drop_zero]
        unfold logicalStream loopStream
        dsimp only
        congr 1
    case pos =>
      rw [if_pos hroL]
      cases blockNode with
      | some b =>
        dsimp only
        obtain ⟨hwb, hif⟩ := hbs
        have hboBL : bo < b.BlockLength := by
          by_cases hf : readU32 ctx.ModifiedHeader 0 = 0
          · rw [if_neg (fun hh => hh hf)] at hif
            exact hif
          · rw [if_pos hf] at hif
            exact hif.2.2.2.2.2.2.2.2
        exact consumeStep fuel L hL IH ctx queue b bo ro out events trace hfuel hbase
          hq hroL hrr hwb (Or.inl hboBL) (by
            by_cases hf : readU32 ctx.ModifiedHeader 0 = 0
            · rw [if_neg (fun hh => hh hf)]
              exact Nat.le_of_lt hboBL
            · rw [if_pos hf] at hif ⊢
              exact hif)
      | none =>
        dsimp only
        have hcond : ¬(ctx.RestartRequested = true) := by
          rw [hrr]
          exact Bool.false_ne_true
        rw [if_neg hcond]
        cases queue with
        | nil =>
          dsimp only
          have hSnil : loopStream ctx none bo ([] : List BLOCK_NODE) = [] := rfl
          refine ⟨_, rfl, ?_, ?_, ?_, ⟨hbase, trivial⟩, by simp, rfl, rfl, rfl, rfl,
            rfl, hrr, rfl, [], rfl, by simp⟩
          · dsimp only
            rw [hSnil, List.take_nil, List.append_nil]
          · dsimp only
            rw [hSnil]
            simp
          · dsimp only
            rw [hSnil, List.drop_nil]
            rfl
        | cons b rest =>
          dsimp only
          simp only [List.length_cons] at hfuel
          have hq1 : WFblock b := hq b (List.mem_cons_self b rest)
          have hqr : ∀ x ∈ rest, WFblock x := fun x hx => hq x (List.mem_cons_of_mem b hx)
          have hbase0 : WFctxBase
              { ctx with ModifiedHeader := writeU32 ctx.ModifiedHeader 0 0 } := by
            refine ⟨hbase.1, hbase.2.1, ?_⟩
            dsimp only
            rw [length_writeU32 _ _ _ (by rw [hbase.2.2]; omega)]
            exact hbase.2.2
          have hflag0 : readU32 (writeU32 ctx.ModifiedHeader 0 0) 0 = 0 := by
            rw [readU32_writeU32_same _ _ _ (by rw [hbase.2.2]; omega)]
          have hf0neg : ¬(readU32
              ({ ctx with ModifiedHeader := writeU32 ctx.ModifiedHeader 0 0 }).ModifiedHeader
              0 ≠ 0) := fun hh => hh hflag0
          by_cases hbt : b.BlockType = BLOCK_TYPE.PacketBlock
          · rw [if_pos hbt]
            have hfm : filterMatch
                { ctx with ModifiedHeader := writeU32 ctx.ModifiedHeader 0 0 } b =
                suppressedBlock ctx b := (suppressedBlock_packet ctx b hbt).symm
            rw [hfm]
            by_cases hfil : suppressedBlock ctx b = true
            · rw [if_pos hfil]
              obtain ⟨r, hrun, hspec⟩ := IH
                { ctx with ModifiedHeader := writeU32 ctx.ModifiedHeader 0 0 } rest none 0
                ro out (events ++ [QmEvent.cleanupBlock b]) trace (by omega) hbase0
                trivial hqr hro hrr
              refine ⟨r, hrun, ?_⟩
              have hSsup : loopStream ctx none bo (b :: rest) =
                  loopStream { ctx with ModifiedHeader := writeU32 ctx.ModifiedHeader 0 0 }
                    none 0 rest := by
                unfold loopStream
                dsimp only
                rw [List.map_cons, List.flatten_cons]
                have hrb : renderBlock ctx b = [] := by
                  rw [renderBlock_packet ctx b hbt, if_pos hfil]
                rw [hrb]
                simp only [List.nil_append]
                exact queueStream_congr ctx _ rest rfl rfl rfl rfl
              obtain ⟨c1, c2, c3, c4, c5, c6, c7, c8, c9, c10, c11, c12, c13⟩ := hspec
              rw [← hSsup] at c1 c2 c3
              refine ⟨c1, c2, c3, c4, c5, c6, c7, c8, c9, c10, c11, c12, ?_⟩
              obtain ⟨consumed, hcc1, hcc2⟩ := c13
              refine ⟨b :: consumed, ?_, ?_⟩
              · exact congrArg (List.cons b) hcc1
              · rw [hcc2, List.append_assoc]
                rfl
            · rw [if_neg hfil]
              by_cases htr : ctx.SnapLength ≠ 0 ∧ ctx.SnapLength < readU32 b.data 20
              · rw [if_pos htr]
                have hts := trimOverlay_spec
                  { ctx with ModifiedHeader := writeU32 ctx.ModifiedHeader 0 0 } b hbase0
                  hq1 hbt htr
                dsimp only at hts
                obtain ⟨ht1, ht2, ht3, ht4, ht5, ht6, ht7⟩ := hts
                obtain ⟨r, hrun, hspec⟩ := consumeStep fuel L hL IH
                  (trimOverlay { ctx with ModifiedHeader := writeU32 ctx.ModifiedHeader 0 0 } b)
                  rest b 0 ro out events trace (by omega) ⟨hbase.1, hbase.2.1, by
                    rw [ht4]
                    rw [length_writeU32 _ _ _
                      (by rw [length_writeU32 _ _ _ (by simp)]; simp)]
                    rw [length_writeU32 _ _ _ (by simp)]
                    simp⟩
                  hqr hroL hrr hq1 (Or.inr (by omega)) (by
                    rw [if_pos ht7]
                    refine ⟨hbt, by omega, by omega, by omega, by omega, ?_, ?_,
                      Or.inl (Nat.zero_le _), by omega⟩
                    · rw [ht1, ht2, show 28 + ctx.SnapLength - 28 = ctx.SnapLength from
                        by omega]
                      exact ht4
                    · rw [ht2]
                      exact ht5)
                refine ⟨r, hrun, ?_⟩
                refine LoopSpec_convert ctx
                  (trimOverlay
                    { ctx with ModifiedHeader := writeU32 ctx.ModifiedHeader 0 0 } b)
                  (b :: rest) rest none (some b) bo 0 L ro
                  out events trace r ?_ rfl rfl rfl rfl rfl rfl hspec
                unfold loopStream
                dsimp only
                rw [List.map_cons, List.flatten_cons]
                simp only [List.nil_append]
                have h2 : (rest.map (renderBlock
                    (trimOverlay
                      { ctx with ModifiedHeader := writeU32 ctx.ModifiedHeader 0 0 }
                      b))).flatten = (rest.map (renderBlock ctx)).flatten :=
                  queueStream_congr _ ctx rest rfl rfl rfl rfl
                rw [h2]
                have h1 : remainingOfBlock
                    (trimOverlay
                      { ctx with ModifiedHeader := writeU32 ctx.ModifiedHeader 0 0 } b)
                    b 0 = renderBlock ctx b := by
                  unfold remainingOfBlock
                  rw [if_pos ht7]
                  rw [renderBlock_packet ctx b hbt, if_neg hfil, if_pos htr]
                  rw [ht1, ht2]
                  have hz : streamPos
                      (trimOverlay
                        { ctx with ModifiedHeader := writeU32 ctx.ModifiedHeader 0 0 } b)
                      0 = 0 :=
                    streamPos_le_MFO _ 0 (by omega) (Nat.zero_le _)
                  rw [hz, List.drop_zero]
                  rw [show 28 + ctx.SnapLength - 28 = ctx.SnapLength from by omega,
                    show 28 + ctx.SnapLength + ctx.SnapLengthPad - (28 + ctx.SnapLength) =
                      ctx.SnapLengthPad from by omega]
                rw [h1]
              · rw [if_neg htr]
                obtain ⟨r, hrun, hspec⟩ := consumeStep fuel L hL IH
                  { ctx with ModifiedHeader := writeU32 ctx.ModifiedHeader 0 0 }
                  rest b 0 ro out events trace (by omega) hbase0 hqr hroL hrr hq1
                  (Or.inr (by omega)) (by
                    rw [if_neg hf0neg]
                    exact Nat.zero_le _)
                refine ⟨r, hrun, ?_⟩
                refine LoopSpec_convert ctx
                  { ctx with ModifiedHeader := writeU32 ctx.ModifiedHeader 0 0 }
                  (b :: rest) rest none (some b) bo 0 L ro
                  out events trace r ?_ rfl rfl rfl rfl rfl rfl hspec
                unfold loopStream
                dsimp only
                rw [List.map_cons, List.flatten_cons]
                simp only [List.nil_append]
                congr 1
                unfold remainingOfBlock
                rw [if_neg hf0neg, List.drop_zero]
                rw [renderBlock_packet ctx b hbt, if_neg hfil, if_neg htr]
          · rw [if_neg hbt]
            have hbtO : b.BlockType = BLOCK_TYPE.OtherBlock := by
              cases hcase : b.BlockType with
              | OtherBlock => rfl
              | PacketBlock => exact absurd hcase hbt
            obtain ⟨r, hrun, hspec⟩ := consumeStep fuel L hL IH
              { ctx with ModifiedHeader := writeU32 ctx.ModifiedHeader 0 0 }
              rest b 0 ro out events trace (by omega) hbase0 hqr hroL hrr hq1
              (Or.inr (by omega)) (by
                rw [if_neg hf0neg]
                exact Nat.zero_le _)
            refine ⟨r, hrun, ?_⟩
            refine LoopSpec_convert ctx
              { ctx with ModifiedHeader := writeU32 ctx.ModifiedHeader 0 0 }
              (b :: rest) rest none (some b) bo 0 L ro
              out events trace r ?_ rfl rfl rfl rfl rfl rfl hspec
            unfold loopStream
            dsimp only
            rw [List.map_cons, List.flatten_cons]
            simp only [List.nil_append]
            congr 1
            unfold remainingOfBlock
            rw [if_neg hf0neg, List.drop_zero]
            rw [renderBlock_other ctx b hbtO]

theorem DispatchRead_normal (ctx : READER_CONTEXT) (queue : List BLOCK_NODE) (L : Nat)
    (hL : L < 4294967296) (hwf : WFreader ctx) (hq : ∀ x ∈ queue, WFblock x)
    (hst : ctx.RestartState = RESTART_STATE.RestartStateNormal)
    (hrr : ctx.RestartRequested = false) :
    ∃ r : LoopOut, DispatchRead true (some ctx) queue L =
        some ⟨NTSTATUS.STATUS_SUCCESS, r.readOffset, some r.ctx, r.queue, r.out,
          r.events, r.trace⟩ ∧
      r.out = (logicalStream ctx queue).take L ∧
      r.readOffset = min L (logicalStream ctx queue).length ∧
      logicalStream r.ctx r.queue = (logicalStream ctx queue).drop L ∧
      WFreader r.ctx ∧ (∀ x ∈ r.queue, WFblock x) ∧
      r.ctx.SnapLength = ctx.SnapLength ∧ r.ctx.SnapLengthPad = ctx.SnapLengthPad ∧
      r.ctx.FilteredProcessIds = ctx.FilteredProcessIds ∧
      r.ctx.FilteredConnectionIds = ctx.FilteredConnectionIds ∧
      r.ctx.RestartState = ctx.RestartState ∧ r.ctx.RestartRequested = false ∧
      r.trace = [] ∧
      ∃ consumed, ctx.CurrentBlock.toList ++ queue =
          consumed ++ r.ctx.CurrentBlock.toList ++ r.queue ∧
        r.events = consumed.map QmEvent.cleanupBlock := by
  obtain ⟨hbase, hbs⟩ := hwf
  obtain ⟨r, hrun, hspec⟩ := readLoop_spec L hL (L + queue.length + 1) ctx queue
    ctx.CurrentBlock ctx.CurrentBlockOffset 0 [] [] [] (by omega) hbase hbs hq
    (Nat.zero_le L) hrr
  obtain ⟨c1, c2, c3, c4, c5, c6, c7, c8, c9, c10, c11, c12, c13⟩ := hspec
  refine ⟨r, ?_, ?_, ?_, ?_, c4, c5, c6, c7, c8, c9, c10, c11, c12, ?_⟩
  · unfold DispatchRead
    rw [if_neg (fun h => Bool.noConfusion h)]
    dsimp only
    rw [hst]
    dsimp only
    rw [hrun]
  · rw [c1, List.nil_append, Nat.sub_zero, ← logicalStream_eq_loopStream]
  · rw [c2, Nat.zero_add, Nat.sub_zero, ← logicalStream_eq_loopStream]
  · rw [c3, Nat.sub_zero, ← logicalStream_eq_loopStream]
  · obtain ⟨consumed, hcc1, hcc2⟩ := c13
    rw [List.nil_append] at hcc2
    exact ⟨consumed, hcc1, hcc2⟩

/-- A sequence of read calls on one reader handle: each call passes the
persisted context and remaining queue of the previous one and collects the
bytes it returned. -/
def runReads (ctx : READER_CONTEXT) (queue : List BLOCK_NODE) :
    List Nat → Option (READER_CONTEXT × List BLOCK_NODE × List (List Nat))
  | [] => some (ctx, queue, [])
  | L :: Ls =>
    match DispatchRead true (some ctx) queue L with
    | some res =>
      match res.ctx with
      | some ctx2 =>
        match runReads ctx2 res.queue Ls with
        | some (ctx3, queue3, outs) => some (ctx3, queue3, res.out :: outs)
        | none => none
      | none => none
    | none => none

/-- C1: over any sequence of read calls on one reader handle (destination
sizes Ls, any sizes including 1), the concatenation of the returned byte
lists equals the first (sum Ls) bytes of the reader's logical stream (the
concatenation of all non-suppressed, possibly-truncated capture blocks in
dequeue order, after the current block's remainder); the remaining logical
stream after the calls is exactly the rest, so the saved cursor makes each
call resume at the byte where the previous one stopped; call i returns the
next Ls[i] stream bytes from its resume point; and it returns fewer bytes
than requested exactly when the stream has fewer than Ls[i] bytes left,
which is never an error.  (Stated for reads in the Normal restart state
with no restart pending; the restart path is covered by C3.) -/
theorem dispatchRead_stream_reassembly : ∀ (Ls : List Nat) (ctx : READER_CONTEXT)
    (queue : List BLOCK_NODE),
    WFreader ctx → (∀ x ∈ queue, WFblock x) →
    ctx.RestartState = RESTART_STATE.RestartStateNormal →
    ctx.RestartRequested = false → (∀ l ∈ Ls, l < 4294967296) →
    ∃ ctx2 queue2 outs, runReads ctx queue Ls = some (ctx2, queue2, outs) ∧
      outs.length = Ls.length ∧
      outs.flatten = (logicalStream ctx queue).take Ls.sum ∧
      logicalStream ctx2 queue2 = (logicalStream ctx queue).drop Ls.sum ∧
      (∀ i, i < Ls.length →
        outs.getD i [] =
          ((logicalStream ctx queue).drop ((Ls.take i).sum)).take (Ls.getD i 0)) ∧
      (∀ i, i < Ls.length →
        ((outs.getD i []).length < Ls.getD i 0 ↔
          ((logicalStream ctx queue).drop ((Ls.take i).sum)).length < Ls.getD i 0)) := by
  intro Ls
  induction Ls with
  | nil =>
    intro ctx queue hwf hq hst hrr hLs
    refine ⟨ctx, queue, [], rfl, rfl, by simp, by simp, ?_, ?_⟩
    · intro i hi
      simp at hi
    · intro i hi
      simp at hi
  | cons L Ls IH =>
    intro ctx queue hwf hq hst hrr hLs
    have hL : L < 4294967296 := hLs L (List.mem_cons_self L Ls)
    have hLs2 : ∀ l ∈ Ls, l < 4294967296 := fun l hl => hLs l (List.mem_cons_of_mem L hl)
    obtain ⟨r, hcall, o1, o2, o3, o4, o5, o6, o7, o8, o9, o10, o11, o12, o13⟩ :=
      DispatchRead_normal ctx queue L hL hwf hq hst hrr
    obtain ⟨ctx3, q3, outs, hrun, hlen, hflat, hdrop, hcontent, hshort⟩ :=
      IH r.ctx r.queue o4 o5 (by rw [o10, hst]) o11 hLs2
    refine ⟨ctx3, q3, r.out :: outs, ?_, by simp [hlen], ?_, ?_, ?_, ?_⟩
    · rw [runReads.eq_def]
      dsimp only
      rw [hcall]
      dsimp only
      rw [hrun]
    · rw [List.flatten_cons, hflat, o3, o1]
      rw [List.sum_cons, List.take_add]
    · rw [hdrop, o3, List.drop_drop, List.sum_cons]
    · intro i hi
      cases i with
      | zero =>
        simp only [List.getD_cons_zero, List.take_zero, List.sum_nil, List.drop_zero]
        exact o1
      | succ j =>
        simp only [List.length_cons] at hi
        have hj : j < Ls.length := by omega
        have hcj := hcontent j hj
        simp only [List.getD_cons_succ, List.take_succ_cons, List.sum_cons]
        rw [hcj, o3]
        congr 1
        rw [List.drop_drop]
    · intro i hi
      cases i with
      | zero =>
        simp only [List.getD_cons_zero, List.take_zero, List.sum_nil, List.drop_zero]
        rw [o1, List.length_take]
        omega
      | succ j =>
        simp only [List.length_cons] at hi
        have hj : j < Ls.length := by omega
        have hsj := hshort j hj
        rw [o3] at hsj
        simp only [List.getD_cons_succ, List.take_succ_cons, List.sum_cons]
        have hdd : (logicalStream ctx queue).drop (L + (Ls.take j).sum) =
            ((logicalStream ctx queue).drop L).drop ((Ls.take j).sum) := by
          rw [List.drop_drop]
        rw [hdd]
        exact hsj

/-- A concrete well-formed 36-byte packet block used as a witness input. -/
def blkW : BLOCK_NODE :=
  ⟨BLOCK_TYPE.PacketBlock, 1, 2, 36,
    u32le 6 ++ u32le 36 ++ List.replicate 12 0 ++ u32le 2 ++ u32le 2 ++
      [171, 205, 0, 0] ++ u32le 36⟩

theorem dispatchRead_stream_reassembly_witness :
    ∃ ctx2 queue2 outs,
      runReads { freshContext with RestartState := RESTART_STATE.RestartStateNormal }
        [blkW] [1, 100] = some (ctx2, queue2, outs) ∧
      outs.length = ([1, 100] : List Nat).length ∧
      outs.flatten = (logicalStream
        { freshContext with RestartState := RESTART_STATE.RestartStateNormal }
        [blkW]).take ([1, 100] : List Nat).sum ∧
      logicalStream ctx2 queue2 = (logicalStream
        { freshContext with RestartState := RESTART_STATE.RestartStateNormal }
        [blkW]).drop ([1, 100] : List Nat).sum ∧
      (∀ i, i < ([1, 100] : List Nat).length →
        outs.getD i [] =
          ((logicalStream
            { freshContext with RestartState := RESTART_STATE.RestartStateNormal }
            [blkW]).drop ((([1, 100] : List Nat).take i).sum)).take
            (([1, 100] : List Nat).getD i 0)) ∧
      (∀ i, i < ([1, 100] : List Nat).length →
        ((outs.getD i []).length < ([1, 100] : List Nat).getD i 0 ↔
          ((logicalStream
            { freshContext with RestartState := RESTART_STATE.RestartStateNormal }
            [blkW]).drop ((([1, 100] : List Nat).take i).sum)).length <
            ([1, 100] : List Nat).getD i 0)) :=
  dispatchRead_stream_reassembly [1, 100]
    { freshContext with RestartState := RESTART_STATE.RestartStateNormal } [blkW]
    (by decide) (by decide) rfl rfl (by decide)

theorem getD_drop (l : List Nat) (m k : Nat) :
    (l.drop m).getD k 0 = l.getD (m + k) 0 := by
  by_cases h : m + k < l.length
  · rw [List.getD_eq_getElem _ _ (by rw [List.length_drop]; omega),
      List.getD_eq_getElem _ _ h]
    exact List.getElem_drop l
  · rw [List.getD_eq_default _ _ (by rw [List.length_drop]; omega),
      List.getD_eq_default _ _ (by omega)]

theorem readU32_drop_eq (l : List Nat) (m : Nat) :
    readU32 l m = readU32 (l.drop m) 0 := by
  unfold readU32
  rw [getD_drop l m 0, getD_drop l m 1, getD_drop l m 2, getD_drop l m 3]
  simp

theorem readU32_append_left (l1 l2 : List Nat) (i : Nat) (h : i + 4 ≤ l1.length) :
    readU32 (l1 ++ l2) i = readU32 l1 i := by
  unfold readU32
  rw [List.getD_append l1 l2 0 i (by omega), List.getD_append l1 l2 0 (i + 1) (by omega),
    List.getD_append l1 l2 0 (i + 2) (by omega),
    List.getD_append l1 l2 0 (i + 3) (by omega)]

theorem renderTrim_hdr_readU32 (data : List Nat) (S padB i : Nat) (hi : i + 4 ≤ 28) :
    readU32 (renderTrim data S padB) i =
      readU32 (writeU32 (writeU32 ((List.range 28).map (fun k => data.getD k 0)) 4
        (28 + S + padB + 4)) 20 S) i := by
  unfold renderTrim
  rw [readU32_append_left _ _ i (by
      simp only [List.length_append, length_hdrmap, List.length_map, List.length_range,
        List.length_replicate]
      omega),
    readU32_append_left _ _ i (by
      simp only [List.length_append, length_hdrmap, List.length_map, List.length_range]
      omega),
    readU32_append_left _ _ i (by rw [length_hdrmap]; omega)]

theorem renderTrim_readU32_20 (data : List Nat) (S padB : Nat) (hS : S < 4294967296) :
    readU32 (renderTrim data S padB) 20 = S := by
  rw [renderTrim_hdr_readU32 data S padB 20 (by omega)]
  rw [readU32_writeU32_same _ _ _ (by
    rw [length_writeU32 _ _ _ (by simp)]
    simp)]
  omega

theorem renderTrim_readU32_4 (data : List Nat) (S padB : Nat)
    (h : 28 + S + padB + 4 < 4294967296) :
    readU32 (renderTrim data S padB) 4 = 28 + S + padB + 4 := by
  rw [renderTrim_hdr_readU32 data S padB 4 (by omega)]
  rw [readU32_writeU32_disjoint _ _ _ _ (Or.inl (by omega)) (by
    rw [length_writeU32 _ _ _ (by simp)]
    simp)]
  rw [readU32_writeU32_same _ _ _ (by simp)]
  omega

theorem renderTrim_readU32_footer (data : List Nat) (S padB : Nat)
    (h : 28 + S + padB + 4 < 4294967296) :
    readU32 (renderTrim data S padB) (28 + S + padB) = 28 + S + padB + 4 := by
  rw [readU32_drop_eq, renderTrim_drop]
  have h1 : (writeU32 (writeU32 ((List.range 28).map (fun i => data.getD i 0)) 4
      (28 + S + padB + 4)) 20 S).drop (28 + S + padB) = [] :=
    List.drop_of_length_le (by rw [length_hdrmap]; omega)
  have h2 : ((List.range S).map (fun i => data.getD (28 + i) 0)).drop
      (28 + S + padB - 28) = [] :=
    List.drop_of_length_le (by simp only [List.length_map, List.length_range]; omega)
  have h3 : (List.replicate padB (0 : Nat)).drop (28 + S + padB - 28 - S) = [] :=
    List.drop_of_length_le (by rw [List.length_replicate]; omega)
  rw [h1, h2, h3]
  simp only [List.nil_append]
  rw [show 28 + S + padB - 28 - S - padB = 0 from by omega, List.drop_zero]
  rw [readU32_u32le]
  omega

theorem renderTrim_getD_pad (data : List Nat) (S padB j : Nat) (hj : j < padB) :
    (renderTrim data S padB).getD (28 + S + j) 0 = 0 := by
  rw [show 28 + S + j = (28 + S) + j from rfl, ← getD_drop]
  rw [renderTrim_drop]
  have h1 : (writeU32 (writeU32 ((List.range 28).map (fun i => data.getD i 0)) 4
      (28 + S + padB + 4)) 20 S).drop (28 + S) = [] :=
    List.drop_of_length_le (by rw [length_hdrmap]; omega)
  have h2 : ((List.range S).map (fun i => data.getD (28 + i) 0)).drop (28 + S - 28) = [] :=
    List.drop_of_length_le (by simp only [List.length_map, List.length_range]; omega)
  rw [h1, h2]
  simp only [List.nil_append]
  rw [show 28 + S - 28 - S = 0 from by omega, List.drop_zero]
  rw [List.getD_append _ _ 0 j (by rw [List.length_replicate]; omega)]
  rw [List.getD_eq_getElem _ _ (by rw [List.length_replicate]; omega)]
  exact List.getElem_replicate 0 _

theorem renderTrim_getD_payload (data : List Nat) (S padB j : Nat) (hj : j < S) :
    (renderTrim data S padB).getD (28 + j) 0 = data.getD (28 + j) 0 := by
  rw [← getD_drop]
  rw [renderTrim_drop]
  have h1 : (writeU32 (writeU32 ((List.range 28).map (fun i => data.getD i 0)) 4
      (28 + S + padB + 4)) 20 S).drop 28 = [] :=
    List.drop_of_length_le (by rw [length_hdrmap])
  rw [h1]
  simp only [List.nil_append]
  rw [show 28 - 28 = 0 from rfl, List.drop_zero]
  rw [List.getD_append _ _ 0 j (by
    simp only [List.length_append, List.length_map, List.length_range]
    omega)]
  rw [List.getD_append _ _ 0 j (by simp only [List.length_map, List.length_range]; omega)]
  exact getD_range_map _ _ _ hj

/-- C2: a packet block whose captured length exceeds the nonzero snap
length S streams to exactly headerSize + S + snapLengthPad + footerSize
bytes; the delivered header's capturedLength field reads S; the delivered
header's blockLength field and the delivered footer's blockLength field
both read that new total; every byte of the padding zone
[headerSize+S, headerSize+S+snapLengthPad) is zero; the payload zone is
the unmodified original payload; and the delivered bytes are exactly the
truncated rendering, so the gap between the modified and original footer
offsets is never emitted (the cursor jumps across it). -/
theorem trimmed_block_rendering (ctx : READER_CONTEXT) (b : BLOCK_NODE) (L : Nat)
    (hL : L < 4294967296) (hwf : WFreader ctx) (hwb : WFblock b)
    (hst : ctx.RestartState = RESTART_STATE.RestartStateNormal)
    (hrr : ctx.RestartRequested = false)
    (hcb : ctx.CurrentBlock = none)
    (hbt : b.BlockType = BLOCK_TYPE.PacketBlock)
    (hsup : suppressedBlock ctx b = false)
    (htrim : ctx.SnapLength ≠ 0 ∧ ctx.SnapLength < readU32 b.data 20)
    (hbig : 28 + ctx.SnapLength + ctx.SnapLengthPad + 4 ≤ L) :
    ∃ res : ReadResult, DispatchRead true (some ctx) [b] L = some res ∧
      res.status = NTSTATUS.STATUS_SUCCESS ∧
      res.out = renderTrim b.data ctx.SnapLength ctx.SnapLengthPad ∧
      res.out.length = 28 + ctx.SnapLength + ctx.SnapLengthPad + 4 ∧
      res.information = 28 + ctx.SnapLength + ctx.SnapLengthPad + 4 ∧
      readU32 res.out 20 = ctx.SnapLength ∧
      readU32 res.out 4 = 28 + ctx.SnapLength + ctx.SnapLengthPad + 4 ∧
      readU32 res.out (28 + ctx.SnapLength + ctx.SnapLengthPad) =
        28 + ctx.SnapLength + ctx.SnapLengthPad + 4 ∧
      (∀ j, j < ctx.SnapLengthPad → res.out.getD (28 + ctx.SnapLength + j) 0 = 0) ∧
      (∀ j, j < ctx.SnapLength → res.out.getD (28 + j) 0 = b.data.getD (28 + j) 0) := by
  have hq : ∀ x ∈ [b], WFblock x := by
    intro x hx
    rw [List.mem_singleton] at hx
    exact hx ▸ hwb
  have hbase := hwf.1
  obtain ⟨hlen, hsize, hbytes, hpkt⟩ := hwb
  obtain ⟨h0, h4, hcap⟩ := hpkt hbt
  have hCpad : readU32 b.data 20 ≤ PCAP_NG_PADDING (readU32 b.data 20) := pad_ge _
  have hpm : PCAP_NG_PADDING ctx.SnapLength ≤ PCAP_NG_PADDING (readU32 b.data 20) :=
    pad_mono (Nat.le_of_lt htrim.2)
  have hsg : ctx.SnapLength ≤ PCAP_NG_PADDING ctx.SnapLength := pad_ge _
  have hBL32 : b.BlockLength < 4294967296 := by omega
  have hpads : PCAP_NG_PADDING ctx.SnapLength < 4294967296 := by omega
  have hP : ctx.SnapLengthPad = PCAP_NG_PADDING ctx.SnapLength - ctx.SnapLength := by
    have hp2 := hbase.2.1
    rw [Nat.mod_eq_of_lt hpads] at hp2
    rw [hp2, usub_eq _ _ hsg hpads]
  have htot : 28 + ctx.SnapLength + ctx.SnapLengthPad + 4 < 4294967296 := by omega
  have hS : logicalStream ctx [b] =
      renderTrim b.data ctx.SnapLength ctx.SnapLengthPad := by
    unfold logicalStream
    rw [hcb]
    dsimp only
    simp only [List.map_cons, List.map_nil, List.flatten_cons, List.flatten_nil,
      List.append_nil, List.nil_append]
    rw [renderBlock_packet ctx b hbt,
      if_neg (by rw [hsup]; exact Bool.false_ne_true), if_pos htrim]
  obtain ⟨r, hcall, o1, o2, o3, o4, o5, o6, o7, o8, o9, o10, o11, o12, o13⟩ :=
    DispatchRead_normal ctx [b] L hL ⟨hbase, hwf.2⟩ hq hst hrr
  have hout : r.out = renderTrim b.data ctx.SnapLength ctx.SnapLengthPad := by
    rw [o1, hS, List.take_of_length_le (by rw [renderTrim_length]; omega)]
  have hinfo : r.readOffset = 28 + ctx.SnapLength + ctx.SnapLengthPad + 4 := by
    rw [o2, hS, renderTrim_length]
    omega
  refine ⟨_, hcall, rfl, ?_, ?_, ?_, ?_, ?_, ?_, ?_, ?_⟩
  · exact hout
  · dsimp only
    rw [hout, renderTrim_length]
  · exact hinfo
  · dsimp only
    rw [hout]
    exact renderTrim_readU32_20 _ _ _ hbase.1
  · dsimp only
    rw [hout]
    exact renderTrim_readU32_4 _ _ _ htot
  · dsimp only
    rw [hout]
    exact renderTrim_readU32_footer _ _ _ htot
  · intro j hj
    dsimp only
    rw [hout]
    exact renderTrim_getD_pad _ _ _ _ hj
  · intro j hj
    dsimp only
    rw [hout]
    exact renderTrim_getD_payload _ _ _ _ hj

/-- A packet block with captured length 6 (rounded to 8) in a 40-byte
buffer, used as a trimming witness input. -/
def blkW2 : BLOCK_NODE :=
  ⟨BLOCK_TYPE.PacketBlock, 1, 2, 40,
    u32le 6 ++ u32le 40 ++ List.replicate 12 0 ++ u32le 6 ++ u32le 0 ++
      [1, 2, 3, 4, 5, 6, 0, 0] ++ u32le 40⟩

/-- The witness reader for C2: snap length 2, derived pad 2. -/
def ctxW2 : READER_CONTEXT :=
  { freshContext with RestartState := RESTART_STATE.RestartStateNormal,
                      SnapLength := 2, SnapLengthPad := 2 }

theorem trimmed_block_rendering_witness :
    ∃ res : ReadResult, DispatchRead true (some ctxW2) [blkW2] 100 = some res ∧
      res.status = NTSTATUS.STATUS_SUCCESS ∧
      res.out = renderTrim blkW2.data ctxW2.SnapLength ctxW2.SnapLengthPad ∧
      res.out.length = 28 + ctxW2.SnapLength + ctxW2.SnapLengthPad + 4 ∧
      res.information = 28 + ctxW2.SnapLength + ctxW2.SnapLengthPad + 4 ∧
      readU32 res.out 20 = ctxW2.SnapLength ∧
      readU32 res.out 4 = 28 + ctxW2.SnapLength + ctxW2.SnapLengthPad + 4 ∧
      readU32 res.out (28 + ctxW2.SnapLength + ctxW2.SnapLengthPad) =
        28 + ctxW2.SnapLength + ctxW2.SnapLengthPad + 4 ∧
      (∀ j, j < ctxW2.SnapLengthPad → res.out.getD (28 + ctxW2.SnapLength + j) 0 = 0) ∧
      (∀ j, j < ctxW2.SnapLength → res.out.getD (28 + j) 0 = blkW2.data.getD (28 + j) 0) :=
  trimmed_block_rendering ctxW2 blkW2 100 (by decide) (by decide) (by decide) rfl rfl
    rfl rfl (by decide) (by decide) (by decide)

/-- How one pass of the DispatchRead while loop may touch the restart
machinery: either the restart branch was never taken (trace and
RestartState and the pending flag unchanged), or the pending flag was
observed at a block boundary, cleared, and RestartState was assigned
SendEof when the call had already written at least one byte and Init
otherwise, recording exactly that one assignment in the trace. -/
def TraceOk (ctx : READER_CONTEXT) (trace : List RESTART_STATE) (r : LoopOut) : Prop :=
  (r.trace = trace ∧ r.ctx.RestartState = ctx.RestartState ∧
    r.ctx.RestartRequested = ctx.RestartRequested) ∨
  (ctx.RestartRequested = true ∧ r.ctx.RestartRequested = false ∧
    ∃ st, r.trace = trace ++ [st] ∧ r.ctx.RestartState = st ∧
      st = (if r.readOffset ≠ 0 then RESTART_STATE.RestartStateSendEof
            else RESTART_STATE.RestartStateInit))

theorem consumeStep_light (fuel L : Nat) (hL : L < 4294967296)
    (IH : ∀ (ctx : READER_CONTEXT) (queue : List BLOCK_NODE)
      (blockNode : Option BLOCK_NODE) (bo ro : Nat) (out : List Nat)
      (events : List QmEvent) (trace : List RESTART_STATE),
      queue.length + (L - ro) + 1 ≤ fuel → WFctxBase ctx →
      WFblockState ctx blockNode bo → (∀ x ∈ queue, WFblock x) → ro ≤ L →
      ∃ r, readLoop fuel ctx queue blockNode bo L ro out events trace = some r ∧
        TraceOk ctx trace r)
    (ctxc : READER_CONTEXT) (queue2 : List BLOCK_NODE) (b : BLOCK_NODE)
    (bo ro : Nat) (out : List Nat) (events : List QmEvent)
    (trace : List RESTART_STATE)
    (hfuel : queue2.length + (L - ro) + 1 ≤ fuel + 1)
    (hbase : WFctxBase ctxc) (hq2 : ∀ x ∈ queue2, WFblock x) (hroL : ro < L)
    (hwb : WFblock b)
    (hslack : bo < b.BlockLength ∨ queue2.length + (L - ro) + 2 ≤ fuel + 1)
    (hbs2 : if readU32 ctxc.ModifiedHeader 0 ≠ 0 then
        b.BlockType = BLOCK_TYPE.PacketBlock ∧
        28 ≤ ctxc.DataEndOffset ∧
        ctxc.DataEndOffset ≤ ctxc.ModifiedFooterOffset ∧
        ctxc.ModifiedFooterOffset ≤ ctxc.OriginalFooterOffset ∧
        ctxc.OriginalFooterOffset + 4 = b.BlockLength ∧
        ctxc.ModifiedHeader =
          writeU32 (writeU32 ((List.range 28).map (fun i => b.data.getD i 0)) 4
            (ctxc.ModifiedFooterOffset + 4)) 20 (ctxc.DataEndOffset - 28) ∧
        ctxc.ModifiedFooter = u32le (ctxc.ModifiedFooterOffset + 4) ∧
        (bo ≤ ctxc.ModifiedFooterOffset ∨ ctxc.OriginalFooterOffset ≤ bo) ∧
        bo < b.BlockLength
      else bo ≤ b.BlockLength) :
    ∃ r, (if b.BlockLength ≤ (copyBlock ctxc b L ro bo out).blockOffset then
          readLoop fuel ctxc queue2 none 0 L (copyBlock ctxc b L ro bo out).readOffset
            (copyBlock ctxc b L ro bo out).out (events ++ [QmEvent.cleanupBlock b]) trace
        else
          readLoop fuel ctxc queue2 (some b) (copyBlock ctxc b L ro bo out).blockOffset L
            (copyBlock ctxc b L ro bo out).readOffset (copyBlock ctxc b L ro bo out).out
            events trace) = some r ∧
      TraceOk ctxc trace r := by
  have hlen := hwb.1
  have hsize := hwb.2.1
  by_cases hflag : readU32 ctxc.ModifiedHeader 0 = 0
  case pos =>
    have hifneg : ¬(readU32 ctxc.ModifiedHeader 0 ≠ 0) := fun h => h hflag
    rw [if_neg hifneg] at hbs2
    have hfu1 : queue2.length +
        (L - (ro + min (L - ro) (b.BlockLength - bo))) + 1 ≤ fuel := by
      rcases hslack with h | h <;> omega
    have hc := copyBlock_plain ctxc b L ro bo out hflag hlen hsize hL hroL hbs2
    rw [hc]
    dsimp only
    by_cases hrel : b.BlockLength ≤ bo + min (L - ro) (b.BlockLength - bo)
    · rw [if_pos hrel]
      exact IH ctxc queue2 none 0 (ro + min (L - ro) (b.BlockLength - bo))
        (out ++ (b.data.drop bo).take (L - ro)) (events ++ [QmEvent.cleanupBlock b])
        trace hfu1 hbase trivial hq2 (by omega)
    · rw [if_neg hrel]
      have hbo2 : bo + min (L - ro) (b.BlockLength - bo) < b.BlockLength := by omega
      exact IH ctxc queue2 (some b) (bo + min (L - ro) (b.BlockLength - bo))
        (ro + min (L - ro) (b.BlockLength - bo))
        (out ++ (b.data.drop bo).take (L - ro)) events trace hfu1 hbase
        ⟨hwb, by rw [if_neg hifneg]; exact hbo2⟩ hq2 (by omega)
  case neg =>
    rw [if_pos hflag] at hbs2
    obtain ⟨hbt, hDE28, hDEM, hOrd, hOFO4, hMH, hMF, hcval, hboBL⟩ := hbs2
    have he1 : 28 + (ctxc.DataEndOffset - 28) +
        (ctxc.ModifiedFooterOffset - ctxc.DataEndOffset) + 4 =
        ctxc.ModifiedFooterOffset + 4 := by omega
    have hBL32 : b.BlockLength < 4294967296 := by omega
    have hR := copyBlock_trim ctxc b (ctxc.DataEndOffset - 28)
      (ctxc.ModifiedFooterOffset - ctxc.DataEndOffset) L ro bo out
      (by rw [he1]; exact hMH) (by rw [he1]; exact hMF) (by omega) (by omega)
      (by omega) hOrd hflag hBL32 hL (Nat.le_of_lt hroL) hcval hboBL
    obtain ⟨hc1, hc2, hc3⟩ := hR
    have hposlt := streamPos_lt_renderLength ctxc (ctxc.DataEndOffset - 28)
      (ctxc.ModifiedFooterOffset - ctxc.DataEndOffset) b.BlockLength bo
      (by omega) (by omega) hOrd hcval hboBL
    have hRlen := renderTrim_length b.data (ctxc.DataEndOffset - 28)
      (ctxc.ModifiedFooterOffset - ctxc.DataEndOffset)
    rcases hc3 with ⟨hfull, hcbo⟩ | ⟨hlt2, hcbo, hcval2, hcpos2⟩
    · rw [if_pos (Nat.le_of_eq hcbo.symm)]
      rw [hc1, hc2]
      exact IH ctxc queue2 none 0
        (ro + min (L - ro)
          ((renderTrim b.data (ctxc.DataEndOffset - 28)
            (ctxc.ModifiedFooterOffset - ctxc.DataEndOffset)).length -
            streamPos ctxc bo))
        (out ++ ((renderTrim b.data (ctxc.DataEndOffset - 28)
          (ctxc.ModifiedFooterOffset - ctxc.DataEndOffset)).drop
            (streamPos ctxc bo)).take (L - ro))
        (events ++ [QmEvent.cleanupBlock b]) trace (by rw [hRlen] at *; omega) hbase
        trivial hq2 (by omega)
    · rw [if_neg (by omega)]
      rw [hc1, hc2]
      exact IH ctxc queue2 (some b) ((copyBlock ctxc b L ro bo out).blockOffset)
        (ro + min (L - ro)
          ((renderTrim b.data (ctxc.DataEndOffset - 28)
            (ctxc.ModifiedFooterOffset - ctxc.DataEndOffset)).length -
            streamPos ctxc bo))
        (out ++ ((renderTrim b.data (ctxc.DataEndOffset - 28)
          (ctxc.ModifiedFooterOffset - ctxc.DataEndOffset)).drop
            (streamPos ctxc bo)).take (L - ro))
        events trace (by rw [hRlen] at *; omega) hbase
        ⟨hwb, by
          rw [if_pos hflag]
          exact ⟨hbt, hDE28, hDEM, hOrd, hOFO4, hMH, hMF, hcval2, hcbo⟩⟩
        hq2 (by omega)

theorem readLoop_light (L : Nat) (hL : L < 4294967296) : ∀ (fuel : Nat)
    (ctx : READER_CONTEXT) (queue : List BLOCK_NODE)
    (blockNode : Option BLOCK_NODE) (bo ro : Nat) (out : List Nat)
    (events : List QmEvent) (trace : List RESTART_STATE),
    queue.length + (L - ro) + 1 ≤ fuel → WFctxBase ctx →
    WFblockState ctx blockNode bo → (∀ x ∈ queue, WFblock x) → ro ≤ L →
    ∃ r, readLoop fuel ctx queue blockNode bo L ro out events trace = some r ∧
      TraceOk ctx trace r := by
  intro fuel
  induction fuel with
  | zero =>
    intro ctx queue blockNode bo ro out events trace hfuel hbase hbs hq hro
    omega
  | succ fuel IH =>
    intro ctx queue blockNode bo ro out events trace hfuel hbase hbs hq hro
    rw [readLoop.eq_def]
    dsimp only
    by_cases hroL : ro < L
    case neg =>
      rw [if_neg hroL]
      exact ⟨_, rfl, Or.inl ⟨rfl, rfl, rfl⟩⟩
    case pos =>
      rw [if_pos hroL]
      cases blockNode with
      | some b =>
        dsimp only
        obtain ⟨hwb, hif⟩ := hbs
        have hboBL : bo < b.BlockLength := by
          by_cases hf : readU32 ctx.ModifiedHeader 0 = 0
          · rw [if_neg (fun hh => hh hf)] at hif
            exact hif
          · rw [if_pos hf] at hif
            exact hif.2.2.2.2.2.2.2.2
        exact consumeStep_light fuel L hL IH ctx queue b bo ro out events trace hfuel
          hbase hq hroL hwb (Or.inl hboBL) (by
            by_cases hf : readU32 ctx.ModifiedHeader 0 = 0
            · rw [if_neg (fun hh => hh hf)]
              exact Nat.le_of_lt hboBL
            · rw [if_pos hf] at hif ⊢
              exact hif)
      | none =>
        dsimp only
        by_cases hrrc : ctx.RestartRequested = true
        · rw [if_pos hrrc]
          refine ⟨_, rfl, Or.inr ⟨hrrc, rfl,
            (if ro ≠ 0 then RESTART_STATE.RestartStateSendEof
             else RESTART_STATE.RestartStateInit), rfl, rfl, rfl⟩⟩
        · rw [if_neg hrrc]
          cases queue with
          | nil =>
            dsimp only
            exact ⟨_, rfl, Or.inl ⟨rfl, rfl, rfl⟩⟩
          | cons b rest =>
            dsimp only
            simp only [List.length_cons] at hfuel
            have hq1 : WFblock b := hq b (List.mem_cons_self b rest)
            have hqr : ∀ x ∈ rest, WFblock x :=
              fun x hx => hq x (List.mem_cons_of_mem b hx)
            have hbase0 : WFctxBase
                { ctx with ModifiedHeader := writeU32 ctx.ModifiedHeader 0 0 } := by
              refine ⟨hbase.1, hbase.2.1, ?_⟩
              dsimp only
              rw [length_writeU32 _ _ _ (by rw [hbase.2.2]; omega)]
              exact hbase.2.2
            have hflag0 : readU32 (writeU32 ctx.ModifiedHeader 0 0) 0 = 0 := by
              rw [readU32_writeU32_same _ _ _ (by rw [hbase.2.2]; omega)]
            have hf0neg : ¬(readU32
                ({ ctx with
                  ModifiedHeader := writeU32 ctx.ModifiedHeader 0 0 }).ModifiedHeader
                0 ≠ 0) := fun hh => hh hflag0
            by_cases hbt : b.BlockType = BLOCK_TYPE.PacketBlock
            · rw [if_pos hbt]
              have hfm : filterMatch
                  { ctx with ModifiedHeader := writeU32 ctx.ModifiedHeader 0 0 } b =
                  suppressedBlock ctx b := (suppressedBlock_packet ctx b hbt).symm
              rw [hfm]
              by_cases hfil : suppressedBlock ctx b = true
              · rw [if_pos hfil]
                obtain ⟨r, hrun, htr⟩ := IH
                  { ctx with ModifiedHeader := writeU32 ctx.ModifiedHeader 0 0 } rest
                  none 0 ro out (events ++ [QmEvent.cleanupBlock b]) trace (by omega)
                  hbase0 trivial hqr hro
                exact ⟨r, hrun, htr⟩
              · rw [if_neg hfil]
                by_cases htr2 : ctx.SnapLength ≠ 0 ∧ ctx.SnapLength < readU32 b.data 20
                · rw [if_pos htr2]
                  have hts := trimOverlay_spec
                    { ctx with ModifiedHeader := writeU32 ctx.ModifiedHeader 0 0 } b
                    hbase0 hq1 hbt htr2
                  dsimp only at hts
                  obtain ⟨ht1, ht2, ht3, ht4, ht5, ht6, ht7⟩ := hts
                  obtain ⟨r, hrun, htr3⟩ := consumeStep_light fuel L hL IH
                    (trimOverlay
                      { ctx with ModifiedHeader := writeU32 ctx.ModifiedHeader 0 0 } b)
                    rest b 0 ro out events trace (by omega) ⟨hbase.1, hbase.2.1, by
                      rw [ht4]
                      rw [length_writeU32 _ _ _
                        (by rw [length_writeU32 _ _ _ (by simp)]; simp)]
                      rw [length_writeU32 _ _ _ (by simp)]
                      simp⟩
                    hqr hroL hq1 (Or.inr (by omega)) (by
                      rw [if_pos ht7]
                      refine ⟨hbt, by omega, by omega, by omega, by omega, ?_, ?_,
                        Or.inl (Nat.zero_le _), by omega⟩
                      · rw [ht1, ht2, show 28 + ctx.SnapLength - 28 = ctx.SnapLength from
                          by omega]
                        exact ht4
                      · rw [ht2]
                        exact ht5)
                  exact ⟨r, hrun, htr3⟩
                · rw [if_neg htr2]
                  obtain ⟨r, hrun, htr3⟩ := consumeStep_light fuel L hL IH
                    { ctx with ModifiedHeader := writeU32 ctx.ModifiedHeader 0 0 }
                    rest b 0 ro out events trace (by omega) hbase0 hqr hroL hq1
                    (Or.inr (by omega)) (by
                      rw [if_neg hf0neg]
                      exact Nat.zero_le _)
                  exact ⟨r, hrun, htr3⟩
            · rw [if_neg hbt]
              obtain ⟨r, hrun, htr3⟩ := consumeStep_light fuel L hL IH
                { ctx with ModifiedHeader := writeU32 ctx.ModifiedHeader 0 0 }
                rest b 0 ro out events trace (by omega) hbase0 hqr hroL hq1
                (Or.inr (by omega)) (by
                  rw [if_neg hf0neg]
                  exact Nat.zero_le _)
              exact ⟨r, hrun, htr3⟩

/-- C7: a read call completes with an error status only when the
destination buffer is absent or the ReaderContext is absent, and that
status is InvalidParameter with zero bytes transferred; in every other
condition (empty queue, suppression, restart boundary, any restart state,
pending restart flag) the call completes immediately with success and a
short or zero byte count — the loop always terminates, so the call never
blocks waiting for data. -/
theorem dispatchRead_error_conditions (bufferPresent : Bool)
    (ctx? : Option READER_CONTEXT) (queue : List BLOCK_NODE) (L : Nat)
    (hL : L < 4294967296)
    (hwf : ∀ ctx, ctx? = some ctx → WFreader ctx)
    (hq : ∀ x ∈ queue, WFblock x) :
    ∃ res : ReadResult, DispatchRead bufferPresent ctx? queue L = some res ∧
      (res.status ≠ NTSTATUS.STATUS_SUCCESS ↔
        bufferPresent = false ∨ ctx? = none) ∧
      (res.status ≠ NTSTATUS.STATUS_SUCCESS →
        res.status = NTSTATUS.STATUS_INVALID_PARAMETER ∧ res.information = 0) := by
  cases bufferPresent with
  | false =>
    refine ⟨⟨NTSTATUS.STATUS_INVALID_PARAMETER, 0, ctx?, queue, [], [], []⟩, ?_, ?_, ?_⟩
    · unfold DispatchRead
      rw [if_pos rfl]
    · exact ⟨fun _ => Or.inl rfl, fun _ h => NTSTATUS.noConfusion h⟩
    · intro _
      exact ⟨rfl, rfl⟩
  | true =>
    cases ctx? with
    | none =>
      refine ⟨⟨NTSTATUS.STATUS_INVALID_PARAMETER, 0, none, queue, [], [], []⟩,
        ?_, ?_, ?_⟩
      · unfold DispatchRead
        rw [if_neg (fun h => Bool.noConfusion h)]
      · exact ⟨fun _ => Or.inr rfl, fun _ h => NTSTATUS.noConfusion h⟩
      · intro _
        exact ⟨rfl, rfl⟩
    | some ctx =>
      have hwfc := hwf ctx rfl
      have hneq : ∀ h : (⟨NTSTATUS.STATUS_SUCCESS, 0, some
          { ctx with RestartState := RESTART_STATE.RestartStateInit }, queue, [], [],
          [RESTART_STATE.RestartStateInit]⟩ : ReadResult).status ≠
          NTSTATUS.STATUS_SUCCESS, False := fun h => h rfl
      cases hst : ctx.RestartState with
      | RestartStateSendEof =>
        refine ⟨⟨NTSTATUS.STATUS_SUCCESS, 0, some
          { ctx with RestartState := RESTART_STATE.RestartStateInit }, queue, [], [],
          [RESTART_STATE.RestartStateInit]⟩, ?_, ?_, ?_⟩
        · unfold DispatchRead
          rw [if_neg (fun h => Bool.noConfusion h)]
          dsimp only
          rw [hst]
        · refine ⟨fun h => absurd rfl h, fun h => ?_⟩
          rcases h with h | h
          · exact Bool.noConfusion h
          · exact Option.noConfusion h
        · intro h
          exact absurd rfl h
      | RestartStateInit =>
        obtain ⟨r, hrun, htr⟩ := readLoop_light L hL (L + queue.length + 1)
          { ctx with RestartState := RESTART_STATE.RestartStateNormal } queue
          ctx.CurrentBlock ctx.CurrentBlockOffset 0 [] [QmEvent.getInitialBlocks false]
          [RESTART_STATE.RestartStateNormal] (by omega) hwfc.1 hwfc.2 hq (Nat.zero_le L)
        refine ⟨⟨NTSTATUS.STATUS_SUCCESS, r.readOffset, some r.ctx, r.queue, r.out,
          r.events, r.trace⟩, ?_, ?_, ?_⟩
        · unfold DispatchRead
          rw [if_neg (fun h => Bool.noConfusion h)]
          dsimp only
          rw [hst]
          dsimp only
          rw [hrun]
        · refine ⟨fun h => absurd rfl h, fun h => ?_⟩
          rcases h with h | h
          · exact Bool.noConfusion h
          · exact Option.noConfusion h
        · intro h
          exact absurd rfl h
      | RestartStateNormal =>
        obtain ⟨r, hrun, htr⟩ := readLoop_light L hL (L + queue.length + 1)
          ctx queue ctx.CurrentBlock ctx.CurrentBlockOffset 0 [] [] []
          (by omega) hwfc.1 hwfc.2 hq (Nat.zero_le L)
        refine ⟨⟨NTSTATUS.STATUS_SUCCESS, r.readOffset, some r.ctx, r.queue, r.out,
          r.events, r.trace⟩, ?_, ?_, ?_⟩
        · unfold DispatchRead
          rw [if_neg (fun h => Bool.noConfusion h)]
          dsimp only
          rw [hst]
          dsimp only
          rw [hrun]
        · refine ⟨fun h => absurd rfl h, fun h => ?_⟩
          rcases h with h | h
          · exact Bool.noConfusion h
          · exact Option.noConfusion h
        · intro h
          exact absurd rfl h

theorem dispatchRead_error_conditions_witness :
    (∃ res : ReadResult, DispatchRead true
        (some { freshContext with RestartState := RESTART_STATE.RestartStateNormal })
        [] 4 = some res ∧
      (res.status ≠ NTSTATUS.STATUS_SUCCESS ↔
        true = false ∨
          (some { freshContext with
            RestartState := RESTART_STATE.RestartStateNormal } : Option READER_CONTEXT) =
            none) ∧
      (res.status ≠ NTSTATUS.STATUS_SUCCESS →
        res.status = NTSTATUS.STATUS_INVALID_PARAMETER ∧ res.information = 0)) ∧
    (∃ res : ReadResult, DispatchRead false none [] 4 = some res ∧
      (res.status ≠ NTSTATUS.STATUS_SUCCESS ↔
        false = false ∨ (none : Option READER_CONTEXT) = none) ∧
      (res.status ≠ NTSTATUS.STATUS_SUCCESS →
        res.status = NTSTATUS.STATUS_INVALID_PARAMETER ∧ res.information = 0)) :=
  ⟨dispatchRead_error_conditions true
      (some { freshContext with RestartState := RESTART_STATE.RestartStateNormal }) [] 4
      (by decide)
      (by intro c hc; injection hc with h; subst h; decide)
      (by intro x hx; exact absurd hx (List.not_mem_nil x)),
    dispatchRead_error_conditions false none [] 4 (by decide)
      (fun c hc => Option.noConfusion hc)
      (by intro x hx; exact absurd hx (List.not_mem_nil x))⟩

theorem setIdList_preserves (allocOk : Bool) (ctx : READER_CONTEXT)
    (t : ID_LIST_TYPE) (buf : List Nat) (len : Nat) (ctx2 : READER_CONTEXT)
    (h : SetIdList allocOk ctx t buf len = some ctx2) :
    ctx2.RestartState = ctx.RestartState := by
  unfold SetIdList at h
  dsimp only at h
  split at h
  · split at h
    · injection h with h2
      cases t <;> (rw [← h2])
    · exact Option.noConfusion h
  · injection h with h2
    cases t <;> (rw [← h2])

theorem ctlOperation_preserves (env : Env) (ctx : READER_CONTEXT)
    (ioctl inLen obr : Nat) (buffer : Option (List Nat)) (out : CtlOutcome)
    (h : ctlOperation env ctx ioctl inLen obr buffer = some out) :
    out.ctx.RestartState = ctx.RestartState := by
  unfold ctlOperation at h
  by_cases h1 : ioctl = IOCTL_KPH_FILTER_CONNECTIONS
  · rw [if_pos h1] at h
    cases hset : SetIdList env.allocOk ctx ID_LIST_TYPE.ConnectionIdList
        (buffer.getD []) inLen with
    | none =>
      rw [hset] at h
      exact Option.noConfusion h
    | some ctx2 =>
      rw [hset] at h
      injection h with h2
      subst h2
      exact setIdList_preserves _ _ _ _ _ _ hset
  rw [if_neg h1] at h
  by_cases h2 : ioctl = IOCTL_KPH_FILTER_PROCESSES
  · rw [if_pos h2] at h
    cases hset : SetIdList env.allocOk ctx ID_LIST_TYPE.ProcessIdList
        (buffer.getD []) inLen with
    | none =>
      rw [hset] at h
      exact Option.noConfusion h
    | some ctx2 =>
      rw [hset] at h
      injection h with h2
      subst h2
      exact setIdList_preserves _ _ _ _ _ _ hset
  rw [if_neg h2] at h
  by_cases h3 : ioctl = IOCTL_KPH_MARK_RESTART
  · rw [if_pos h3] at h
    injection h with h2
    subst h2
    rfl
  rw [if_neg h3] at h
  by_cases h4 : ioctl = IOCTL_KPH_SET_SNAP_LENGTH
  · rw [if_pos h4] at h
    dsimp only at h
    by_cases h4b : ctx.SnapLength ≠ readU32 (buffer.getD []) 0
    · rw [if_pos h4b] at h
      injection h with h2
      subst h2
      rfl
    · rw [if_neg h4b] at h
      injection h with h2
      subst h2
      rfl
  rw [if_neg h4] at h
  by_cases h5 : ioctl = IOCTL_KPH_GET_SNAP_LENGTH
  · rw [if_pos h5] at h
    injection h with h2
    subst h2
    rfl
  rw [if_neg h5] at h
  by_cases h6 : ioctl = IOCTL_KPH_SET_DATA_EVENT_32
  · rw [if_pos h6] at h
    injection h with h2
    subst h2
    rfl
  rw [if_neg h6] at h
  by_cases h7 : ioctl = IOCTL_KPH_SET_DATA_EVENT_64
  · rw [if_pos h7] at h
    by_cases h7b : env.x86Build = true
    · rw [if_pos h7b] at h
      injection h with h2
      subst h2
      rfl
    · rw [if_neg h7b] at h
      injection h with h2
      subst h2
      rfl
  rw [if_neg h7] at h
  by_cases h8 : ioctl = IOCTL_KPH_SET_OPEN_CONNECTIONS
  · rw [if_pos h8] at h
    injection h with h2
    subst h2
    rfl
  rw [if_neg h8] at h
  by_cases h9 : ioctl = IOCTL_KPH_GET_STATISTICS
  · rw [if_pos h9] at h
    injection h with h2
    subst h2
    rfl
  rw [if_neg h9] at h
  injection h with h2
  subst h2
  rfl

theorem ctl_preserves_restartState (env : Env) (ctx : READER_CONTEXT)
    (req : CtlRequest) (out : CtlOutcome)
    (h : DispatchDeviceControl env ctx req = some out) :
    out.ctx.RestartState = ctx.RestartState := by
  obtain ⟨ioctl, inLen, outLen, buffer⟩ := req
  by_cases h1 : (ioctl &&& 0x0ffc) >>> 2 > (gIoctlParams env.statSize).length
  · replace h : (some ⟨NTSTATUS.STATUS_INVALID_DEVICE_REQUEST, 0, ctx, none, []⟩ :
        Option CtlOutcome) = some out := by
      rw [← h]
      simp only [DispatchDeviceControl, if_pos h1]
    injection h with h2
    subst h2
    rfl
  · cases hget : (gIoctlParams env.statSize).get? ((ioctl &&& 0x0ffc) >>> 2) with
    | none =>
      replace h : (none : Option CtlOutcome) = some out := by
        rw [← h]
        simp only [DispatchDeviceControl, if_neg h1, hget]
      exact Option.noConfusion h
    | some p =>
      replace h : (if inLen < requiredInLen p ((ioctl &&& 0x1000) != 0) ∨
            outLen < requiredOutLen p ((ioctl &&& 0x1000) != 0) then
          some ⟨NTSTATUS.STATUS_BUFFER_TOO_SMALL, 0, ctx, none, []⟩
        else if (requiredInLen p ((ioctl &&& 0x1000) != 0) ≠ 0 ∨
            requiredOutLen p ((ioctl &&& 0x1000) != 0) ≠ 0) ∧ buffer = none then
          some ⟨NTSTATUS.STATUS_INVALID_PARAMETER, 0, ctx, none, []⟩
        else ctlOperation env ctx ioctl inLen
          (requiredOutLen p ((ioctl &&& 0x1000) != 0)) buffer) = some out := by
        rw [← h]
        simp only [DispatchDeviceControl, if_neg h1, hget]
      by_cases h2 : inLen < requiredInLen p ((ioctl &&& 0x1000) != 0) ∨
          outLen < requiredOutLen p ((ioctl &&& 0x1000) != 0)
      · rw [if_pos h2] at h
        injection h with h2b
        subst h2b
        rfl
      · rw [if_neg h2] at h
        by_cases h3 : (requiredInLen p ((ioctl &&& 0x1000) != 0) ≠ 0 ∨
            requiredOutLen p ((ioctl &&& 0x1000) != 0) ≠ 0) ∧ buffer = none
        · rw [if_pos h3] at h
          injection h with h2b
          subst h2b
          rfl
        · rw [if_neg h3] at h
          exact ctlOperation_preserves _ _ _ _ _ _ _ h

/-- C3: the reader's restart state only ever transitions Init→Normal (a
read entered in Init switches to Normal before fetching the initial block
snapshot), Normal→SendEof (only when the restart-requested flag is
observed set at a block boundary after at least one byte was written in
the current call), Normal→Init (flag observed with zero bytes written,
skipping the boundary marker), and SendEof→Init (a read entered in
SendEof returns exactly 0 bytes with success and resets to Init); control
operations never change the restart state, so no other transition occurs
under any sequence of read and control operations. -/
theorem restart_state_transitions :
    (∀ (env : Env) (ctx : READER_CONTEXT) (req : CtlRequest) (out : CtlOutcome),
      DispatchDeviceControl env ctx req = some out →
      out.ctx.RestartState = ctx.RestartState) ∧
    (∀ (ctx : READER_CONTEXT) (queue : List BLOCK_NODE) (L : Nat)
      (res : ReadResult), L < 4294967296 → WFreader ctx →
      (∀ x ∈ queue, WFblock x) →
      DispatchRead true (some ctx) queue L = some res →
      ∃ ctx2, res.ctx = some ctx2 ∧ res.status = NTSTATUS.STATUS_SUCCESS ∧
        ((ctx.RestartState = RESTART_STATE.RestartStateSendEof ∧
            res.stateTrace = [RESTART_STATE.RestartStateInit] ∧
            ctx2.RestartState = RESTART_STATE.RestartStateInit ∧
            res.information = 0) ∨
         (ctx.RestartState = RESTART_STATE.RestartStateInit ∧
            ((res.stateTrace = [RESTART_STATE.RestartStateNormal] ∧
              ctx2.RestartState = RESTART_STATE.RestartStateNormal) ∨
             (∃ st, res.stateTrace = [RESTART_STATE.RestartStateNormal, st] ∧
               ctx2.RestartState = st ∧ ctx.RestartRequested = true ∧
               st = (if res.information ≠ 0 then RESTART_STATE.RestartStateSendEof
                     else RESTART_STATE.RestartStateInit)))) ∨
         (ctx.RestartState = RESTART_STATE.RestartStateNormal ∧
            ((res.stateTrace = [] ∧
              ctx2.RestartState = RESTART_STATE.RestartStateNormal) ∨
             (∃ st, res.stateTrace = [st] ∧
               ctx2.RestartState = st ∧ ctx.RestartRequested = true ∧
               st = (if res.information ≠ 0 then RESTART_STATE.RestartStateSendEof
                     else RESTART_STATE.RestartStateInit)))))) := by
  constructor
  · exact ctl_preserves_restartState
  · intro ctx queue L res hL hwf hq h
    cases hst : ctx.RestartState with
    | RestartStateSendEof =>
      replace h : some (⟨NTSTATUS.STATUS_SUCCESS, 0,
          some { ctx with RestartState := RESTART_STATE.RestartStateInit }, queue, [], [],
          [RESTART_STATE.RestartStateInit]⟩ : ReadResult) = some res := by
        rw [← h]
        unfold DispatchRead
        rw [if_neg (fun hb => Bool.noConfusion hb)]
        dsimp only
        rw [hst]
      injection h with h2
      subst h2
      exact ⟨_, rfl, rfl, Or.inl ⟨rfl, rfl, rfl, rfl⟩⟩
    | RestartStateInit =>
      obtain ⟨r, hrun, htr⟩ := readLoop_light L hL (L + queue.length + 1)
        { ctx with RestartState := RESTART_STATE.RestartStateNormal } queue
        ctx.CurrentBlock ctx.CurrentBlockOffset 0 [] [QmEvent.getInitialBlocks false]
        [RESTART_STATE.RestartStateNormal] (by omega) hwf.1 hwf.2 hq (Nat.zero_le L)
      replace h : some (⟨NTSTATUS.STATUS_SUCCESS, r.readOffset, some r.ctx, r.queue,
          r.out, r.events, r.trace⟩ : ReadResult) = some res := by
        rw [← h]
        unfold DispatchRead
        rw [if_neg (fun hb => Bool.noConfusion hb)]
        dsimp only
        rw [hst]
        dsimp only
        rw [hrun]
      injection h with h2
      subst h2
      refine ⟨r.ctx, rfl, rfl, Or.inr (Or.inl ⟨rfl, ?_⟩)⟩
      rcases htr with ⟨ht1, ht2, ht3⟩ | ⟨ht1, ht2, st, ht3, ht4, ht5⟩
      · exact Or.inl ⟨ht1, ht2⟩
      · exact Or.inr ⟨st, ht3, ht4, ht1, ht5⟩
    | RestartStateNormal =>
      obtain ⟨r, hrun, htr⟩ := readLoop_light L hL (L + queue.length + 1)
        ctx queue ctx.CurrentBlock ctx.CurrentBlockOffset 0 [] [] []
        (by omega) hwf.1 hwf.2 hq (Nat.zero_le L)
      replace h : some (⟨NTSTATUS.STATUS_SUCCESS, r.readOffset, some r.ctx, r.queue,
          r.out, r.events, r.trace⟩ : ReadResult) = some res := by
        rw [← h]
        unfold DispatchRead
        rw [if_neg (fun hb => Bool.noConfusion hb)]
        dsimp only
        rw [hst]
        dsimp only
        rw [hrun]
      injection h with h2
      subst h2
      refine ⟨r.ctx, rfl, rfl, Or.inr (Or.inr ⟨rfl, ?_⟩)⟩
      rcases htr with ⟨ht1, ht2, ht3⟩ | ⟨ht1, ht2, st, ht3, ht4, ht5⟩
      · rw [hst] at ht2
        exact Or.inl ⟨ht1, ht2⟩
      · rw [List.nil_append] at ht3
        exact Or.inr ⟨st, ht3, ht4, ht1, ht5⟩

/-- Concrete inputs for the restart-transition witness. -/
def envW : Env := ⟨true, 64, false, NTSTATUS.STATUS_SUCCESS⟩

def reqW : CtlRequest := ⟨IOCTL_KPH_MARK_RESTART, 0, 0, none⟩

def ctlOutW : CtlOutcome :=
  ⟨NTSTATUS.STATUS_SUCCESS, 0, { freshContext with RestartRequested := true }, none, []⟩

def ctxSE : READER_CONTEXT :=
  { freshContext with RestartState := RESTART_STATE.RestartStateSendEof }

def readResW : ReadResult :=
  ⟨NTSTATUS.STATUS_SUCCESS, 0,
    some { ctxSE with RestartState := RESTART_STATE.RestartStateInit }, [], [], [],
    [RESTART_STATE.RestartStateInit]⟩

theorem restart_state_transitions_witness :
    ctlOutW.ctx.RestartState = freshContext.RestartState ∧
    (∃ ctx2, readResW.ctx = some ctx2 ∧
      readResW.status = NTSTATUS.STATUS_SUCCESS ∧
      ((ctxSE.RestartState = RESTART_STATE.RestartStateSendEof ∧
          readResW.stateTrace = [RESTART_STATE.RestartStateInit] ∧
          ctx2.RestartState = RESTART_STATE.RestartStateInit ∧
          readResW.information = 0) ∨
       (ctxSE.RestartState = RESTART_STATE.RestartStateInit ∧
          ((readResW.stateTrace = [RESTART_STATE.RestartStateNormal] ∧
            ctx2.RestartState = RESTART_STATE.RestartStateNormal) ∨
           (∃ st, readResW.stateTrace = [RESTART_STATE.RestartStateNormal, st] ∧
             ctx2.RestartState = st ∧ ctxSE.RestartRequested = true ∧
             st = (if readResW.information ≠ 0 then RESTART_STATE.RestartStateSendEof
                   else RESTART_STATE.RestartStateInit)))) ∨
       (ctxSE.RestartState = RESTART_STATE.RestartStateNormal ∧
          ((readResW.stateTrace = [] ∧
            ctx2.RestartState = RESTART_STATE.RestartStateNormal) ∨
           (∃ st, readResW.stateTrace = [st] ∧
             ctx2.RestartState = st ∧ ctxSE.RestartRequested = true ∧
             st = (if readResW.information ≠ 0 then RESTART_STATE.RestartStateSendEof
                   else RESTART_STATE.RestartStateInit)))))) :=
  ⟨restart_state_transitions.1 envW freshContext reqW ctlOutW rfl,
   restart_state_transitions.2 ctxSE [] 4 readResW (by decide) (by decide)
     (fun x hx => absurd hx (List.not_mem_nil x)) rfl⟩

/-- A dequeued packet block that the filter matches is consumed whole: the
loop frees it and copies nothing. -/
theorem readLoop_suppressed (fuel : Nat) (ctx : READER_CONTEXT) (b : BLOCK_NODE)
    (bo L : Nat) (hfu : 2 ≤ fuel) (hL0 : 0 < L)
    (hrr : ctx.RestartRequested = false)
    (hsup : suppressedBlock ctx b = true) :
    readLoop fuel ctx [b] none bo L 0 [] [] [] =
      some ⟨{ ctx with
              ModifiedHeader := writeU32 ctx.ModifiedHeader 0 0,
              CurrentBlock := none, CurrentBlockOffset := 0 }, [], 0, [],
            [QmEvent.cleanupBlock b], []⟩ := by
  obtain ⟨fu, rfl⟩ : ∃ fu, fuel = fu.succ.succ := ⟨fuel - 2, by omega⟩
  have hbt : b.BlockType = BLOCK_TYPE.PacketBlock := by
    unfold suppressedBlock at hsup
    cases hb : b.BlockType with
    | OtherBlock => rw [hb] at hsup; exact Bool.noConfusion hsup
    | PacketBlock => rfl
  have hfm : filterMatch ctx b = true := by
    unfold suppressedBlock at hsup
    rw [hbt] at hsup
    exact hsup
  have hfm2 : filterMatch
      { ctx with ModifiedHeader := writeU32 ctx.ModifiedHeader 0 0 } b = true := hfm
  have hrrne : ¬(ctx.RestartRequested = true) := by
    rw [hrr]; exact fun h => Bool.noConfusion h
  rw [readLoop.eq_def]
  dsimp only
  rw [if_pos hL0, if_neg hrrne]
  rw [if_pos hbt]
  rw [if_pos hfm2]
  rw [readLoop.eq_def]
  dsimp only
  rw [if_pos hL0, if_neg hrrne]
  rfl

/-- C5: For every dequeued packet block the filter decision precedes any
delivery: the process-id filter is consulted first and the connection-id
filter only if the process id matched nothing; a match suppresses the whole
block, which contributes zero bytes to the output and is released through a
cleanup call; absent (null) filter arrays suppress nothing; and non-packet
blocks are never filtered. -/
theorem filter_check_before_delivery :
    (∀ ctx b, filterMatch ctx b =
        (if (match ctx.FilteredProcessIds with
              | some ids => idListMatches ids b.ProcessId
              | none => false) = true then true
         else (match ctx.FilteredConnectionIds with
               | some ids => idListMatches ids b.ConnectionId
               | none => false))) ∧
    (∀ (ctx : READER_CONTEXT) (b : BLOCK_NODE) (L : Nat), 0 < L →
        ctx.RestartState = RESTART_STATE.RestartStateNormal →
        ctx.RestartRequested = false → ctx.CurrentBlock = none →
        suppressedBlock ctx b = true →
        DispatchRead true (some ctx) [b] L =
          some ⟨NTSTATUS.STATUS_SUCCESS, 0,
            some { ctx with
                   ModifiedHeader := writeU32 ctx.ModifiedHeader 0 0,
                   CurrentBlock := none, CurrentBlockOffset := 0 },
            [], [], [QmEvent.cleanupBlock b], []⟩) ∧
    (∀ ctx b, ctx.FilteredProcessIds = none → ctx.FilteredConnectionIds = none →
        suppressedBlock ctx b = false) ∧
    (∀ ctx (b : BLOCK_NODE), b.BlockType = BLOCK_TYPE.OtherBlock →
        suppressedBlock ctx b = false) := by
  refine ⟨?_, ?_, ?_, ?_⟩
  · intro ctx b
    unfold filterMatch
    cases hp : ctx.FilteredProcessIds with
    | none => simp
    | some ids =>
      cases hm : idListMatches ids b.ProcessId with
      | false => simp
      | true => simp
  · intro ctx b L hL0 hst hrr hcb hsup
    unfold DispatchRead
    rw [if_neg (fun h => Bool.noConfusion h)]
    dsimp only
    conv_lhs => rw [hst]
    dsimp only
    conv_lhs => rw [hcb]
    rw [readLoop_suppressed (L + [b].length + 1) ctx b ctx.CurrentBlockOffset L
      (by simp) hL0 hrr hsup]
  · intro ctx b hp hc
    unfold suppressedBlock filterMatch
    rw [hp, hc]
    cases hb : b.BlockType <;> simp
  · intro ctx b hbt
    unfold suppressedBlock
    rw [hbt]

/-- Concrete inputs for the filter witness: a reader filtering process ids
1 and 7, a packet block from process 7, and a non-packet block. -/
def ctxS : READER_CONTEXT :=
  { freshContext with
    RestartState := RESTART_STATE.RestartStateNormal,
    FilteredProcessIds := some [1, 7] }

def blkS : BLOCK_NODE := ⟨BLOCK_TYPE.PacketBlock, 7, 3, 12, List.replicate 12 0⟩

def blkO : BLOCK_NODE := ⟨BLOCK_TYPE.OtherBlock, 7, 3, 8, List.replicate 8 0⟩

theorem filter_check_before_delivery_witness :
    (filterMatch ctxS blkS =
      (if (match ctxS.FilteredProcessIds with
            | some ids => idListMatches ids blkS.ProcessId
            | none => false) = true then true
       else (match ctxS.FilteredConnectionIds with
             | some ids => idListMatches ids blkS.ConnectionId
             | none => false))) ∧
    DispatchRead true (some ctxS) [blkS] 4 =
      some ⟨NTSTATUS.STATUS_SUCCESS, 0,
        some { ctxS with
               ModifiedHeader := writeU32 ctxS.ModifiedHeader 0 0,
               CurrentBlock := none, CurrentBlockOffset := 0 },
        [], [], [QmEvent.cleanupBlock blkS], []⟩ ∧
    suppressedBlock freshContext blkS = false ∧
    suppressedBlock ctxS blkO = false :=
  ⟨filter_check_before_delivery.1 ctxS blkS,
   filter_check_before_delivery.2.1 ctxS blkS 4 (by decide) rfl rfl rfl (by decide),
   filter_check_before_delivery.2.2.1 freshContext blkS rfl rfl,
   filter_check_before_delivery.2.2.2 ctxS blkO rfl⟩

/-- C9: serving a truncated packet block never writes through the original
block buffer.  In the embedding block buffers are the immutable data fields
of BLOCK_NODE values, so the property reads: the trim fix-ups land only in
the reader-local ModifiedHeader and ModifiedFooter scratch copies and the
reader's zone offsets, every field of the reader unrelated to the overlay is
untouched; each read call splits the blocks it held into released-unchanged
ones (handed whole to cleanup) plus retained-unchanged ones; and across any
sequence of reads every block still held is, byte for byte, one of the
original input blocks. -/
theorem truncation_no_block_writes :
    (∀ ctx b, (trimOverlay ctx b).SnapLength = ctx.SnapLength ∧
      (trimOverlay ctx b).SnapLengthPad = ctx.SnapLengthPad ∧
      (trimOverlay ctx b).RestartState = ctx.RestartState ∧
      (trimOverlay ctx b).RestartRequested = ctx.RestartRequested ∧
      (trimOverlay ctx b).CurrentBlock = ctx.CurrentBlock ∧
      (trimOverlay ctx b).CurrentBlockOffset = ctx.CurrentBlockOffset ∧
      (trimOverlay ctx b).FilteredProcessIds = ctx.FilteredProcessIds ∧
      (trimOverlay ctx b).FilteredConnectionIds = ctx.FilteredConnectionIds) ∧
    (∀ (ctx : READER_CONTEXT) (queue : List BLOCK_NODE) (L : Nat),
      L < 4294967296 → WFreader ctx → (∀ x ∈ queue, WFblock x) →
      ctx.RestartState = RESTART_STATE.RestartStateNormal →
      ctx.RestartRequested = false →
      ∃ r : LoopOut, DispatchRead true (some ctx) queue L =
          some ⟨NTSTATUS.STATUS_SUCCESS, r.readOffset, some r.ctx, r.queue, r.out,
            r.events, r.trace⟩ ∧
        ∃ consumed, ctx.CurrentBlock.toList ++ queue =
            consumed ++ r.ctx.CurrentBlock.toList ++ r.queue ∧
          r.events = consumed.map QmEvent.cleanupBlock) ∧
    (∀ (Ls : List Nat) (ctx : READER_CONTEXT) (queue : List BLOCK_NODE),
      WFreader ctx → (∀ x ∈ queue, WFblock x) →
      ctx.RestartState = RESTART_STATE.RestartStateNormal →
      ctx.RestartRequested = false → (∀ l ∈ Ls, l < 4294967296) →
      ∃ ctx2 queue2 outs, runReads ctx queue Ls = some (ctx2, queue2, outs) ∧
        ∃ consumed, ctx.CurrentBlock.toList ++ queue =
            consumed ++ ctx2.CurrentBlock.toList ++ queue2 ∧
          ∀ b2 ∈ ctx2.CurrentBlock.toList ++ queue2,
            b2 ∈ ctx.CurrentBlock.toList ++ queue) := by
  refine ⟨?_, ?_, ?_⟩
  · intro ctx b
    exact ⟨rfl, rfl, rfl, rfl, rfl, rfl, rfl, rfl⟩
  · intro ctx queue L hL hwf hq hst hrr
    obtain ⟨r, hcall, o1, o2, o3, o4, o5, o6, o7, o8, o9, o10, o11, o12, o13⟩ :=
      DispatchRead_normal ctx queue L hL hwf hq hst hrr
    exact ⟨r, hcall, o13⟩
  · intro Ls
    induction Ls with
    | nil =>
      intro ctx queue hwf hq hst hrr hLs
      exact ⟨ctx, queue, [], rfl, [], rfl, fun b2 hb2 => hb2⟩
    | cons L Ls IH =>
      intro ctx queue hwf hq hst hrr hLs
      have hL : L < 4294967296 := hLs L (List.mem_cons_self L Ls)
      have hLs2 : ∀ l ∈ Ls, l < 4294967296 :=
        fun l hl => hLs l (List.mem_cons_of_mem L hl)
      obtain ⟨r, hcall, o1, o2, o3, o4, o5, o6, o7, o8, o9, o10, o11, o12, o13⟩ :=
        DispatchRead_normal ctx queue L hL hwf hq hst hrr
      obtain ⟨c1, hsplit1, hev1⟩ := o13
      obtain ⟨ctx3, q3, outs, hrun, c2, hsplit2, hmem⟩ :=
        IH r.ctx r.queue o4 o5 (by rw [o10, hst]) o11 hLs2
      refine ⟨ctx3, q3, r.out :: outs, ?_, c1 ++ c2, ?_, ?_⟩
      · rw [runReads.eq_def]
        dsimp only
        rw [hcall]
        dsimp only
        rw [hrun]
      · rw [hsplit1, List.append_assoc c1, hsplit2]
        simp [List.append_assoc]
      · intro b2 hb2
        have h3 := hmem b2 hb2
        rw [hsplit1]
        simp only [List.mem_append] at h3 ⊢
        tauto

/-- Concrete inputs for the no-block-writes witness: a Normal-state reader
and a well-formed 8-byte non-packet block. -/
def ctxN9 : READER_CONTEXT :=
  { freshContext with RestartState := RESTART_STATE.RestartStateNormal }

def blkT9 : BLOCK_NODE := ⟨BLOCK_TYPE.OtherBlock, 0, 0, 8, [1, 2, 3, 4, 5, 6, 7, 8]⟩

theorem truncation_no_block_writes_witness :
    ((trimOverlay ctxN9 blkT9).SnapLength = ctxN9.SnapLength ∧
      (trimOverlay ctxN9 blkT9).SnapLengthPad = ctxN9.SnapLengthPad ∧
      (trimOverlay ctxN9 blkT9).RestartState = ctxN9.RestartState ∧
      (trimOverlay ctxN9 blkT9).RestartRequested = ctxN9.RestartRequested ∧
      (trimOverlay ctxN9 blkT9).CurrentBlock = ctxN9.CurrentBlock ∧
      (trimOverlay ctxN9 blkT9).CurrentBlockOffset = ctxN9.CurrentBlockOffset ∧
      (trimOverlay ctxN9 blkT9).FilteredProcessIds = ctxN9.FilteredProcessIds ∧
      (trimOverlay ctxN9 blkT9).FilteredConnectionIds = ctxN9.FilteredConnectionIds) ∧
    (∃ r : LoopOut, DispatchRead true (some ctxN9) [blkT9] 4 =
        some ⟨NTSTATUS.STATUS_SUCCESS, r.readOffset, some r.ctx, r.queue, r.out,
          r.events, r.trace⟩ ∧
      ∃ consumed, ctxN9.CurrentBlock.toList ++ [blkT9] =
          consumed ++ r.ctx.CurrentBlock.toList ++ r.queue ∧
        r.events = consumed.map QmEvent.cleanupBlock) ∧
    (∃ ctx2 queue2 outs,
      runReads ctxN9 [blkT9] [3, 9] = some (ctx2, queue2, outs) ∧
      ∃ consumed, ctxN9.CurrentBlock.toList ++ [blkT9] =
          consumed ++ ctx2.CurrentBlock.toList ++ queue2 ∧
        ∀ b2 ∈ ctx2.CurrentBlock.toList ++ queue2,
          b2 ∈ ctxN9.CurrentBlock.toList ++ [blkT9]) :=
  ⟨truncation_no_block_writes.1 ctxN9 blkT9,
   truncation_no_block_writes.2.1 ctxN9 [blkT9] 4 (by decide) (by decide) (by decide)
     rfl rfl,
   truncation_no_block_writes.2.2 [3, 9] ctxN9 [blkT9] (by decide) (by decide)
     rfl rfl (by decide)⟩
